import Mathlib

/-!
Verification development for the similar-answer pipeline of the gptapi
backend (src/index.ts: findSimilarAnswers with its inner
sanitizeJsonResponse, src/libraries/rateLimiter.js: RateLimiter,
src/libraries/azureHelpers.ts: submitQuestionDocuments).

The JavaScript/TypeScript code is shallowly embedded:
* JS strings are Lean `String`/`List Char` (UTF-16 subtleties and
  non-ASCII case mapping are out of scope: all inputs of interest are
  ASCII; `toLowerCase` is modelled by ASCII `Char.toLower`).
* JS numbers are modelled by `Option Rat`: `some q` is an ordinary
  number (exact rational arithmetic in place of binary floating point,
  which is exact for every constant appearing in the code), `none` is
  NaN.  String-to-number coercion is modelled as NaN.
* `JSON.parse` is modelled by an executable recursive-descent parser
  `jsonParse`; a failing parse is `none` (a thrown SyntaxError).
* Exceptions are modelled with `Except Unit`; the try/catch blocks of
  the source become `match` on the `Except` value.
-/

namespace GptApi

/-! ## Characters and strings -/

/-- Opening curly brace character. -/
def lbrace : Char := Char.ofNat 123

/-- Closing curly brace character. -/
def rbrace : Char := Char.ofNat 125

/-- Whitespace recognised by the JavaScript regex class backslash-s
(ASCII part: tab, newline, vertical tab, form feed, carriage return,
space). -/
def jsWs (c : Char) : Bool :=
  c.toNat = 9 || c.toNat = 10 || c.toNat = 11 || c.toNat = 12 || c.toNat = 13 || c.toNat = 32

/-- Whitespace accepted by `JSON.parse` (space, tab, newline, carriage
return only). -/
def jsonWs (c : Char) : Bool :=
  c.toNat = 32 || c.toNat = 9 || c.toNat = 10 || c.toNat = 13

/-- Boolean prefix test on character lists. -/
def isPrefOf : List Char → List Char → Bool
  | [], _ => true
  | _ :: _, [] => false
  | a :: as, b :: bs => a = b && isPrefOf as bs

/-- Boolean substring test: does `hay` contain `nd` (JS
`String.prototype.includes`)? -/
def isSubOf (nd : List Char) : List Char → Bool
  | [] => nd.isEmpty
  | c :: rest => isPrefOf nd (c :: rest) || isSubOf nd rest

/-- JS `hay.includes(nd)`. -/
def strIncludes (hay nd : String) : Bool := isSubOf nd.toList hay.toList

/-- JS `s.startsWith(p)`. -/
def strStarts (s p : String) : Bool := isPrefOf p.toList s.toList

/-- JS `s.toLowerCase()` (ASCII). -/
def strLower (s : String) : String := ⟨s.toList.map Char.toLower⟩

/-- JS `s.substring(0, n)`. -/
def strTake (s : String) (n : Nat) : String := ⟨s.toList.take n⟩

/-! ## JSON values -/

/-- The result of `JSON.parse`: a JSON value.  Object fields are kept
in textual order; duplicate keys are resolved by `jlookup` taking the
last occurrence, as `JSON.parse` does. -/
inductive Json where
  | null : Json
  | bool (b : Bool) : Json
  | num (q : Rat) : Json
  | str (s : String) : Json
  | arr (elems : List Json) : Json
  | obj (fields : List (String × Json)) : Json

/-- Field lookup on a parsed JSON object: last occurrence of the key
wins (matching `JSON.parse` duplicate-key behaviour). -/
def jlookup (fields : List (String × Json)) (k : String) : Option Json :=
  ((fields.filter (fun p => p.1 = k)).getLast?).map Prod.snd

/-- Field access `j.k` as evaluated by the pipeline: objects yield the
field (or `none` for `undefined`), `null` throws a TypeError, any other
value yields `undefined`. -/
def jsGetProp (j : Json) (k : String) : Except Unit (Option Json) :=
  match j with
  | Json.obj fields => Except.ok (jlookup fields k)
  | Json.null => Except.error ()
  | _ => Except.ok none

/-- JS truthiness of a JSON value. -/
def jsTruthy (j : Json) : Bool :=
  match j with
  | Json.null => false
  | Json.bool b => b
  | Json.num q => !(q = 0)
  | Json.str s => !(s = "")
  | Json.arr _ => true
  | Json.obj _ => true

/-- Calling a string method (`replace`, `toLowerCase`, `substring`,
`includes`) on a field: succeeds only when the field holds a string,
otherwise a TypeError is thrown. -/
def asStrE (v : Option Json) : Except Unit String :=
  match v with
  | some (Json.str s) => Except.ok s
  | _ => Except.error ()

/-! ## JSON parser (model of JSON.parse) -/

/-- Value of one hex digit. -/
def hexVal (c : Char) : Option Nat :=
  if 48 ≤ c.toNat ∧ c.toNat ≤ 57 then some (c.toNat - 48)
  else if 97 ≤ c.toNat ∧ c.toNat ≤ 102 then some (c.toNat - 87)
  else if 65 ≤ c.toNat ∧ c.toNat ≤ 70 then some (c.toNat - 55)
  else none

/-- Hex digit (lowercase) for a value below 16. -/
def hexDigit (n : Nat) : Char :=
  if n < 10 then Char.ofNat (48 + n) else Char.ofNat (87 + n)

/-- Named escape resolution inside a JSON string literal. -/
def unescChar (c : Char) : Option Char :=
  if c = '"' then some '"'
  else if c = '\\' then some '\\'
  else if c = '/' then some '/'
  else if c = 'n' then some (Char.ofNat 10)
  else if c = 't' then some (Char.ofNat 9)
  else if c = 'r' then some (Char.ofNat 13)
  else if c = 'b' then some (Char.ofNat 8)
  else if c = 'f' then some (Char.ofNat 12)
  else none

/-- Fueled worker for `pStr`; every step consumes at least one input
character. -/
def pStrF : Nat → List Char → Option (List Char × List Char)
  | 0, _ => none
  | _ + 1, [] => none
  | fuel + 1, c :: rest =>
    if c = '"' then some ([], rest)
    else if c = '\\' then
      match rest with
      | [] => none
      | e :: rest2 =>
        if e = 'u' then
          match rest2 with
          | h1 :: h2 :: h3 :: h4 :: rest3 =>
            match hexVal h1, hexVal h2, hexVal h3, hexVal h4 with
            | some v1, some v2, some v3, some v4 =>
              (pStrF fuel rest3).map
                (fun p => (Char.ofNat (v1 * 4096 + v2 * 256 + v3 * 16 + v4) :: p.1, p.2))
            | _, _, _, _ => none
          | _ => none
        else
          match unescChar e with
          | some u => (pStrF fuel rest2).map (fun p => (u :: p.1, p.2))
          | none => none
    else if c.toNat < 32 then none
    else (pStrF fuel rest).map (fun p => (c :: p.1, p.2))

/-- Parser for the body of a JSON string literal (the opening quote is
already consumed); returns the decoded characters and the input after
the closing quote.  Raw control characters are a syntax error, as in
`JSON.parse`. -/
def pStr (l : List Char) : Option (List Char × List Char) := pStrF (l.length + 1) l

/-- Numeric value of a digit run. -/
def digitsVal (ds : List Char) : Nat :=
  ds.foldl (fun a c => a * 10 + (c.toNat - 48)) 0

/-- Integer power of ten as a rational. -/
def pow10 (e : Int) : Rat :=
  if 0 ≤ e then ((10 : Rat) ^ e.toNat) else 1 / ((10 : Rat) ^ (-e).toNat)

/-- Parser for a JSON number (sign, integer part, fraction, exponent).
Returns the exact rational value. -/
def pNumber (l : List Char) : Option (Json × List Char) :=
  let (neg, l1) : Bool × List Char :=
    match l with
    | '-' :: r => (true, r)
    | _ => (false, l)
  match l1 with
  | [] => none
  | c :: r =>
    if ¬ c.isDigit then none
    else
      let (ids, r1) : List Char × List Char :=
        if c = '0' then ([c], r) else (c :: r.takeWhile Char.isDigit, r.dropWhile Char.isDigit)
      let (fds, r2) : List Char × List Char :=
        match r1 with
        | '.' :: r1a => (r1a.takeWhile Char.isDigit, r1a.dropWhile Char.isDigit)
        | _ => ([], r1)
      let hadDot : Bool := match r1 with | '.' :: _ => true | _ => false
      if hadDot ∧ fds = [] then none
      else
        let (expOk, eneg, eds, r3) : Bool × Bool × List Char × List Char :=
          match r2 with
          | 'e' :: '+' :: r2a => (true, false, r2a.takeWhile Char.isDigit, r2a.dropWhile Char.isDigit)
          | 'e' :: '-' :: r2a => (true, true, r2a.takeWhile Char.isDigit, r2a.dropWhile Char.isDigit)
          | 'e' :: r2a => (true, false, r2a.takeWhile Char.isDigit, r2a.dropWhile Char.isDigit)
          | 'E' :: '+' :: r2a => (true, false, r2a.takeWhile Char.isDigit, r2a.dropWhile Char.isDigit)
          | 'E' :: '-' :: r2a => (true, true, r2a.takeWhile Char.isDigit, r2a.dropWhile Char.isDigit)
          | 'E' :: r2a => (true, false, r2a.takeWhile Char.isDigit, r2a.dropWhile Char.isDigit)
          | _ => (false, false, [], r2)
        let hadExp : Bool := match r2 with | 'e' :: _ => true | 'E' :: _ => true | _ => false
        if hadExp ∧ eds = [] then none
        else
          let mantissa : Rat :=
            (digitsVal ids : Rat) + (digitsVal fds : Rat) / ((10 : Rat) ^ fds.length)
          let ev : Int := if eneg then -(digitsVal eds : Int) else (digitsVal eds : Int)
          let v : Rat := (if neg then -1 else 1) * mantissa * (if expOk then pow10 ev else 1)
          some (Json.num v, r3)

/-- Skip JSON whitespace. -/
def skipJWs (l : List Char) : List Char := l.dropWhile jsonWs

mutual

/-- Fueled parser for one JSON value.  Fuel is only a recursion bound:
`jsonParse` supplies fuel exceeding the input length, which always
suffices. -/
def pValue : Nat → List Char → Option (Json × List Char)
  | 0, _ => none
  | fuel + 1, l =>
    match l with
    | [] => none
    | c :: rest =>
      if c = '"' then (pStr rest).map (fun p => (Json.str ⟨p.1⟩, p.2))
      else if c = '[' then
        match skipJWs rest with
        | ']' :: r => some (Json.arr [], r)
        | l1 => (pItems fuel l1).map (fun p => (Json.arr p.1, p.2))
      else if c = lbrace then
        match skipJWs rest with
        | r0 :: r =>
          if r0 = rbrace then some (Json.obj [], r)
          else (pFields fuel (r0 :: r)).map (fun p => (Json.obj p.1, p.2))
        | [] => none
      else if c = 't' then
        if isPrefOf ['r', 'u', 'e'] rest then some (Json.bool true, rest.drop 3) else none
      else if c = 'f' then
        if isPrefOf ['a', 'l', 's', 'e'] rest then some (Json.bool false, rest.drop 4) else none
      else if c = 'n' then
        if isPrefOf ['u', 'l', 'l'] rest then some (Json.null, rest.drop 3) else none
      else pNumber (c :: rest)

/-- Fueled parser for the elements of a non-empty JSON array, up to and
including the closing bracket. -/
def pItems : Nat → List Char → Option (List Json × List Char)
  | 0, _ => none
  | fuel + 1, l => do
    let (v, r1) ← pValue fuel l
    match skipJWs r1 with
    | ',' :: r2 => (pItems fuel (skipJWs r2)).map (fun p => (v :: p.1, p.2))
    | ']' :: r2 => some ([v], r2)
    | _ => none

/-- Fueled parser for the members of a non-empty JSON object, up to and
including the closing brace. -/
def pFields : Nat → List Char → Option (List (String × Json) × List Char)
  | 0, _ => none
  | fuel + 1, l =>
    match l with
    | c :: rest =>
      if c = '"' then do
        let (k, r1) ← pStr rest
        match skipJWs r1 with
        | ':' :: r2 => do
          let (v, r3) ← pValue fuel (skipJWs r2)
          match skipJWs r3 with
          | ',' :: r4 => (pFields fuel (skipJWs r4)).map (fun p => ((⟨k⟩, v) :: p.1, p.2))
          | r5 :: r6 => if r5 = rbrace then some ([(⟨k⟩, v)], r6) else none
          | [] => none
        | _ => none
      else none
    | [] => none

end

/-- Model of `JSON.parse`: parse a complete JSON text, requiring only
whitespace after the value. -/
def jsonParse (s : String) : Option Json :=
  let l := skipJWs s.toList
  match pValue (s.toList.length + 1) l with
  | some (v, r) => if skipJWs r = [] then some v else none
  | none => none

/-! ## Model of JSON.stringify on arrays of question/answer pairs -/

/-- Escape of one character as performed by `JSON.stringify` inside a
string literal. -/
def jEscapeChar (c : Char) : List Char :=
  if c = '"' then ['\\', '"']
  else if c = '\\' then ['\\', '\\']
  else if c.toNat = 10 then ['\\', 'n']
  else if c.toNat = 13 then ['\\', 'r']
  else if c.toNat = 9 then ['\\', 't']
  else if c.toNat = 8 then ['\\', 'b']
  else if c.toNat = 12 then ['\\', 'f']
  else if c.toNat < 32 then ['\\', 'u', '0', '0', hexDigit (c.toNat / 16), hexDigit (c.toNat % 16)]
  else [c]

/-- String-literal escaping of `JSON.stringify`. -/
def jEscape (l : List Char) : List Char := (l.map jEscapeChar).flatten

/-- `JSON.stringify({question: q, answer: a})`: an opening brace, the
quoted key question, a colon, the escaped question value in quotes, a
comma, the quoted key answer, a colon, the escaped answer value in
quotes, and a closing brace. -/
def stringifyPair (p : String × String) : List Char :=
  lbrace :: '"' :: 'q' :: 'u' :: 'e' :: 's' :: 't' :: 'i' :: 'o' :: 'n' :: '"' :: ':' :: '"' ::
    (jEscape p.1.toList ++ '"' :: ',' :: '"' :: 'a' :: 'n' :: 's' :: 'w' :: 'e' :: 'r' :: '"' ::
      ':' :: '"' :: (jEscape p.2.toList ++ '"' :: [rbrace]))

/-- Comma-separated concatenation, as in `JSON.stringify` of an array. -/
def sepJoin : List (List Char) → List Char
  | [] => []
  | [x] => x
  | x :: y :: rest => x ++ ',' :: sepJoin (y :: rest)

/-- `JSON.stringify` of the recovered question/answer pair array. -/
def stringifyPairs (ps : List (String × String)) : String :=
  ⟨'[' :: sepJoin (ps.map stringifyPair) ++ [']']⟩

/-! ## Regex models used by sanitizeJsonResponse -/

/-- Length of `dropWhile` never exceeds the input length. -/
theorem dropWhile_len_le {α : Type} (p : α → Bool) (l : List α) :
    (l.dropWhile p).length ≤ l.length := by
  induction l with
  | nil => simp [List.dropWhile]
  | cons c rest ih =>
    by_cases h : p c = true
    · simp [List.dropWhile, h]; omega
    · simp [List.dropWhile, h]

/-- Character at an index. -/
def charAt (l : List Char) (i : Nat) : Option Char := l.get? i

/-- First index at or after `i` holding a non-whitespace character (or
the length of the list). -/
def skipWsIdx (l : List Char) (i : Nat) : Nat :=
  i + ((l.drop i).takeWhile jsWs).length

/-- Attempt of the prefix `[` whitespace `{` of the bracket-extraction
regex at index `i`; on success returns the index right after the
brace. -/
def opensAt (l : List Char) (i : Nat) : Option Nat :=
  if charAt l i = some '[' then
    let p := skipWsIdx l (i + 1)
    if charAt l p = some lbrace then some (p + 1) else none
  else none

/-- Attempt of the suffix `}` whitespace `]` of the bracket-extraction
regex at index `k`; on success returns the index of the bracket. -/
def closeEndAt (l : List Char) (k : Nat) : Option Nat :=
  if charAt l k = some rbrace then
    let j := skipWsIdx l (k + 1)
    if charAt l j = some ']' then some j else none
  else none

/-- Greatest index `k ≥ lo` where the closing suffix matches (the
greedy dot-star of the regex backtracks from the right). -/
def findCloseK (l : List Char) (lo : Nat) : Option Nat :=
  ((List.range l.length).filter (fun k => decide (lo ≤ k) && (closeEndAt l k).isSome)).getLast?

/-- Model of `text.match(/\[\s*\{.*\}\s*\]/s)` followed by taking the
matched substring: leftmost viable start, then greedy extent. -/
def extractArraySub (s : String) : Option String :=
  let l := s.toList
  match (List.range l.length).find? (fun i =>
      match opensAt l i with
      | some pe => (findCloseK l pe).isSome
      | none => false) with
  | some i =>
    match opensAt l i with
    | some pe =>
      match findCloseK l pe with
      | some k =>
        match closeEndAt l k with
        | some j => some ⟨(l.drop i).take (j + 1 - i)⟩
        | none => none
      | none => none
    | none => none
  | none => none

/-- Fueled worker for `stripTags`; each step consumes at least one
input character, so fuel exceeding the length never runs out. -/
def stripTagsF : Nat → List Char → List Char
  | 0, l => l
  | _ + 1, [] => []
  | fuel + 1, c :: rest =>
    if c = '<' then
      match rest.dropWhile (fun d => ¬ d = '>') with
      | '>' :: r2 => stripTagsF fuel r2
      | _ => c :: stripTagsF fuel rest
    else c :: stripTagsF fuel rest

/-- Model of `replace(/<[^>]*>/g, "")` applied to a question: each tag
(from a `<` to the first following `>`) is deleted. -/
def stripTags (l : List Char) : List Char := stripTagsF (l.length + 1) l

/-- Literal-prefix consumption. -/
def expectLit (lit : List Char) (l : List Char) : Option (List Char) :=
  if isPrefOf lit l then some (l.drop lit.length) else none

/-- Skip JS-regex whitespace. -/
def skipWsL (l : List Char) : List Char := l.dropWhile jsWs

/-- Capture of `([^"]*?)"`: the characters before the next quote, which
must exist. -/
def capTillQuote (l : List Char) : Option (List Char × List Char) :=
  let q := l.takeWhile (fun c => ¬ c = '"')
  match l.dropWhile (fun c => ¬ c = '"') with
  | '"' :: r => some (q, r)
  | _ => none

/-- Capture of the lazy `([^]*?)"\s*\}` tail of the fragment regex: the
shortest run of arbitrary characters followed by a quote, optional
whitespace and a closing brace; returns the capture and the input after
the brace. -/
def capAnswer : List Char → Option (List Char × List Char)
  | [] => none
  | c :: rest =>
    if c = '"' then
      match skipWsL rest with
      | d :: r2 =>
        if d = rbrace then some ([], r2)
        else (capAnswer rest).map (fun p => (c :: p.1, p.2))
      | [] => none
    else (capAnswer rest).map (fun p => (c :: p.1, p.2))

/-- Deterministic attempt of the whole question/answer fragment regex
at the head of `l`; on success returns the remaining input. -/
def matchFragAt (l : List Char) : Option (List Char) := do
  let l1 ← expectLit [lbrace] l
  let l2 := skipWsL l1
  let l3 ← expectLit "\"question\"".toList l2
  let l4 := skipWsL l3
  let l5 ← expectLit [':'] l4
  let l6 := skipWsL l5
  let l7 ← expectLit ['"'] l6
  let (_, l8) ← capTillQuote l7
  let l9 := skipWsL l8
  let l10 ← expectLit [','] l9
  let l11 := skipWsL l10
  let l12 ← expectLit "\"answer\"".toList l11
  let l13 := skipWsL l12
  let l14 ← expectLit [':'] l13
  let l15 := skipWsL l14
  let l16 ← expectLit ['"'] l15
  let (_, l17) ← capAnswer l16
  some l17

/-- Global scan of the fragment regex collecting the matched
substrings, as `text.match(/.../g)` does. -/
def scanFragsF : Nat → List Char → List (List Char)
  | 0, _ => []
  | _ + 1, [] => []
  | fuel + 1, c :: rest =>
    match matchFragAt (c :: rest) with
    | some r => ((c :: rest).take ((c :: rest).length - r.length)) :: scanFragsF fuel r
    | none => scanFragsF fuel rest

/-- Matched substrings of the global fragment regex. -/
def scanFrags (l : List Char) : List (List Char) := scanFragsF (l.length + 1) l

/-- Leftmost application of a deterministic pattern attempt. -/
def scanFor {α : Type} (f : List Char → Option α) : List Char → Option α
  | [] => f []
  | c :: rest =>
    match f (c :: rest) with
    | some x => some x
    | none => scanFor f rest

/-- Attempt of the per-match sub-regex
`/"question"\s*:\s*"([^"]*?)"/` at the head of `l`. -/
def subQMatchAt (l : List Char) : Option (List Char) := do
  let l1 ← expectLit "\"question\"".toList l
  let l2 := skipWsL l1
  let l3 ← expectLit [':'] l2
  let l4 := skipWsL l3
  let l5 ← expectLit ['"'] l4
  let (q, _) ← capTillQuote l5
  some q

/-- Attempt of the per-match sub-regex
`/"answer"\s*:\s*"([^]*?)"\s*\}/` at the head of `l`. -/
def subAMatchAt (l : List Char) : Option (List Char) := do
  let l1 ← expectLit "\"answer\"".toList l
  let l2 := skipWsL l1
  let l3 ← expectLit [':'] l2
  let l4 := skipWsL l3
  let l5 ← expectLit ['"'] l4
  let (a, _) ← capAnswer l5
  some a

/-- Manual escaping applied to each captured answer (three sequential
global replaces: backslash doubling, quote escaping, newline
escaping); they commute into one character-wise map. -/
def manualEscape (l : List Char) : List Char :=
  (l.map (fun c =>
    if c = '\\' then ['\\', '\\']
    else if c = '"' then ['\\', '"']
    else if c.toNat = 10 then ['\\', 'n']
    else [c])).flatten

/-- The question/answer pairs recovered by the fragment-repair step
(lines 280-309 of index.ts): every global match whose two sub-regexes
both succeed contributes one pair, the answer manually escaped. -/
def extractQAPairs (l : List Char) : List (String × String) :=
  (scanFrags l).filterMap (fun m =>
    match scanFor subQMatchAt m, scanFor subAMatchAt m with
    | some q, some a => some ((⟨q⟩ : String), (⟨manualEscape a⟩ : String))
    | _, _ => none)

/-- Split of a run at its last quote, if any. -/
def lastQuoteSplit (run : List Char) : Option (List Char × List Char) :=
  let rev := run.reverse
  let afterRev := rev.takeWhile (fun c => ¬ c = '"')
  match rev.drop afterRev.length with
  | '"' :: brev => some (brev.reverse, afterRev.reverse)
  | _ => none

/-- Attempt of `/(<[^>]*)(")(.*?)(")/` at the head of `l`: the greedy
no-gt run backtracks to its last quote, then the lazy dot (which does
not cross newlines) runs to the next quote.  Returns the two captured
groups and the remaining input. -/
def matchTagQuote (l : List Char) : Option (List Char × List Char × List Char) :=
  match l with
  | '<' :: rest =>
    let run := rest.takeWhile (fun c => ¬ c = '>')
    match lastQuoteSplit run with
    | some (b, after) =>
      let rest2 := after ++ rest.dropWhile (fun c => ¬ c = '>')
      let p3 := rest2.takeWhile (fun c => ¬ c = '"' ∧ ¬ c.toNat = 10)
      match rest2.drop p3.length with
      | '"' :: r3 => some ('<' :: b, p3, r3)
      | _ => none
    | none => none
  | _ => none

/-- Global replacement for the in-tag quote-escaping regex. -/
def replTagQuotesF : Nat → List Char → List Char
  | 0, l => l
  | _ + 1, [] => []
  | fuel + 1, c :: rest =>
    match matchTagQuote (c :: rest) with
    | some (p1, p3, r) => p1 ++ '\\' :: '"' :: p3 ++ '\\' :: '"' :: replTagQuotesF fuel r
    | none => c :: replTagQuotesF fuel rest

/-- Global literal replacement (for the HTML-entity and control-char
replaces). -/
def replaceAllF : Nat → List Char → List Char → List Char → List Char
  | 0, _, _, l => l
  | _ + 1, _, _, [] => []
  | fuel + 1, pat, rep, c :: rest =>
    if isPrefOf pat (c :: rest) then rep ++ replaceAllF fuel pat rep ((c :: rest).drop pat.length)
    else c :: replaceAllF fuel pat rep rest

/-- Global literal replacement wrapper. -/
def replaceAllLit (pat rep : String) (l : List Char) : List Char :=
  replaceAllF (l.length + 1) pat.toList rep.toList l

/-- The escape-and-normalize fallback of sanitizeJsonResponse (lines
316-331 of index.ts): quote escaping inside HTML tags, entity
replacement, then escaping of newline, carriage return and tab. -/
def escapeHtml (l : List Char) : List Char :=
  let t1 := replTagQuotesF (l.length + 1) l
  let t2 := replaceAllLit "&nbsp;" " " t1
  let t3 := replaceAllLit "&amp;" "&" t2
  let t4 := replaceAllLit "&lt;" "<" t3
  let t5 := replaceAllLit "&gt;" ">" t4
  let t6 := replaceAllLit "\n" "\\n" t5
  let t7 := replaceAllLit "\r" "\\r" t6
  replaceAllLit "\t" "\\t" t7

/-! ## sanitizeJsonResponse and the normalization stage -/

/-- The canonical question of the pipeline no-result answer. -/
def canonicalQ : String := "No closely related questions or answers found"

/-- The canonical answer text returned by findSimilarAnswers on every
degraded path. -/
def canonicalA : String := "Please check back for an answer to your question later."

/-- The fallback answer text emitted inside sanitizeJsonResponse. -/
def rephraseA : String := "Please try rephrasing your question or ask something else."

/-- The literal fallback JSON of sanitizeJsonResponse (line 342 of
index.ts). -/
def fallbackLiteral : String :=
  "[\x7b\"question\":\"No closely related questions or answers found\",\"answer\":\"Please try rephrasing your question or ask something else.\"\x7d]"

/-- Model of sanitizeJsonResponse (lines 260-345 of index.ts).  Note
the bracket extraction is applied unconditionally before the first
parse attempt. -/
def sanitizeJsonResponse (text0 : String) : String :=
  let text1 :=
    match extractArraySub text0 with
    | some m => m
    | none => text0
  if (jsonParse text1).isSome then text1
  else
    let pairs := extractQAPairs text1.toList
    if ¬ pairs.isEmpty then stringifyPairs pairs
    else
      let text2 : String := ⟨escapeHtml text1.toList⟩
      if (jsonParse text2).isSome then text2
      else fallbackLiteral

/-- Outcome of the normalization stage (sanitize, parse, array check,
lines 347-381 of index.ts): either a candidate list, or the early
return of the canonical no-result answer (taken both on a parse error
and on a non-array value). -/
inductive NormResult where
  | candidates (xs : List Json) : NormResult
  | earlyNoResult : NormResult

/-- The normalization stage of findSimilarAnswers. -/
def normalizeStage (raw : String) : NormResult :=
  match jsonParse (sanitizeJsonResponse raw) with
  | some (Json.arr xs) => NormResult.candidates xs
  | some _ => NormResult.earlyNoResult
  | none => NormResult.earlyNoResult

/-! ## Search documents and the provider response -/

/-- A retrieval hit as used by findSimilarAnswers (fields of the
`AzureDocument` interface that the pipeline reads; `searchScore` and
`rerankerScore` stand for the at-search.score and
at-search.rerankerScore fields). -/
structure SearchDoc where
  content : Option String
  title : Option String
  searchScore : Option Rat
  rerankerScore : Option Rat
  score : Option Rat

/-- The provider response consumed by findSimilarAnswers (answer text
plus optional searchResults), after `ensureAzureResponse` typing. -/
structure ProviderResponse where
  answer : Option String
  searchResults : Option (List SearchDoc)

/-- JS `x || y` on an optional numeric field: `undefined` and `0` fall
through to the alternative. -/
def numFalsyOr (a : Option Rat) (b : Rat) : Rat :=
  match a with
  | some q => if q = 0 then b else q
  | none => b

/-- Insert-or-update on the content-to-score map, preserving first
insertion order of keys as JS objects do. -/
def assocSet (acc : List (String × Rat)) (k : String) (v : Rat) : List (String × Rat) :=
  if acc.any (fun p => p.1 = k) then acc.map (fun p => if p.1 = k then (k, v) else p)
  else acc ++ [(k, v)]

/-- The `searchScores` map built in lines 212-224 of index.ts: one
entry per hit with truthy content, keyed by content, valued by the
first truthy of score, reranker score, plain score, else 0. -/
def buildSearchScores (sr : Option (List SearchDoc)) : List (String × Rat) :=
  match sr with
  | none => []
  | some hits =>
    hits.foldl (fun acc doc =>
      let sc := numFalsyOr doc.searchScore (numFalsyOr doc.rerankerScore (numFalsyOr doc.score 0))
      match doc.content with
      | some c => if c = "" then acc else assocSet acc c sc
      | none => acc) []

/-- Model of `ensureAzureResponse` (line 79 of index.ts): a falsy
answer becomes the placeholder. -/
def effAnswer (a : Option String) : String :=
  match a with
  | some s => if s = "" then "No answer available" else s
  | none => "No answer available"

/-- The error-message test of lines 228-233 of index.ts. -/
def isErrorAnswer (s : String) : Bool :=
  strIncludes s "Cannot read properties" || strStarts s "Error:" || strIncludes s "error"

/-- One candidate synthesized from a retrieval hit in the
fallback-from-hits step (lines 393-409 of index.ts). -/
def synthFromHit (i : Nat) (doc : SearchDoc) : Json :=
  let content : String :=
    match doc.content with
    | some c => c
    | none => ""
  let question : String :=
    match doc.title with
    | some t => if t = "" then "Search Result " ++ toString (i + 1) else t
    | none => "Search Result " ++ toString (i + 1)
  let searchScore := numFalsyOr doc.searchScore (numFalsyOr doc.rerankerScore 0)
  let normalizedScore := min (searchScore / 5) (95 / 100 : Rat)
  Json.obj [("question", Json.str question), ("answer", Json.str content),
    ("relevanceScore", Json.num normalizedScore)]

/-- The fallback-from-hits step (lines 385-412 of index.ts): when the
parsed answers are exactly one element whose question field strictly
equals the canonical no-result question and search results are present
and non-empty, replace them by one synthesized candidate per hit.
Reading the question field of a `null` element throws. -/
def applyHitsFallback (parsed : List Json) (sr : Option (List SearchDoc)) :
    Except Unit (List Json) :=
  match parsed with
  | [p] => do
    let q ← jsGetProp p "question"
    let isCanon : Bool :=
      match q with
      | some (Json.str s) => s = canonicalQ
      | _ => false
    match sr with
    | some hits =>
      if isCanon ∧ hits.length > 0 then pure (hits.mapIdx synthFromHit)
      else pure parsed
    | none => pure parsed
  | _ => pure parsed

/-! ## The relevance scorer (forEach of lines 419-640 of index.ts) -/

/-- JS number or NaN. -/
abbrev JsNum := Option Rat

/-- The multiplication `answer.relevanceScore * 20` under JS numeric
coercion (null is 0, booleans are 0 or 1; coercion of strings, arrays
and objects is modelled as NaN — no theorem or counterexample below
depends on a non-numeric relevanceScore or confidence field). -/
def jsNumMul20 (v : Json) : JsNum :=
  match v with
  | Json.num q => some (20 * q)
  | Json.null => some 0
  | Json.bool b => some (if b then 20 else 0)
  | _ => none

/-- The comparison `v >= t` under JS numeric coercion (false on
NaN-like values). -/
def jsGE (v : Json) (t : Rat) : Bool :=
  match v with
  | Json.num q => t ≤ q
  | Json.null => t ≤ 0
  | Json.bool b => t ≤ (if b then (1 : Rat) else 0)
  | _ => false

/-- Truthiness of an optional field. -/
def fieldTruthy (v : Option Json) : Bool :=
  match v with
  | some j => jsTruthy j
  | none => false

/-- Field lookup on a JSON value (undefined off objects). -/
def jfield (j : Json) (k : String) : Option Json :=
  match j with
  | Json.obj fields => jlookup fields k
  | _ => none

/-- The curated domain keyword list (lines 486-513 of index.ts). -/
def domainKeywords : List String :=
  ["health", "medical", "medicine", "doctor", "hospital", "clinic", "treatment", "symptoms",
   "disease", "condition", "diagnosis", "patient", "healthcare", "therapy", "prescription",
   "medication", "drug", "vaccine", "surgery", "recovery", "prevention", "wellness", "diet",
   "nutrition", "exercise", "fitness", "disability", "chronic", "acute", "emergency",
   "diabetes", "cancer", "heart", "cardiac", "neurological", "respiratory", "gastrointestinal",
   "dermatology", "orthopedic", "pediatric", "geriatric", "obstetrics", "gynecology", "urology",
   "ophthalmology", "dentistry", "psychiatry", "radiology", "oncology", "immunology", "endocrinology",
   "medical law", "healthcare law", "malpractice", "informed consent", "hipaa", "privacy",
   "patient rights", "medical ethics", "bioethics", "legal", "regulation", "compliance",
   "liability", "negligence", "insurance", "coverage", "claim", "policy", "benefits",
   "psychology", "mental health", "therapy", "counseling", "psychiatry", "depression",
   "anxiety", "stress", "trauma", "disorder", "behavioral", "cognitive", "emotional",
   "psychological", "psychotherapy", "psychologist", "psychiatrist", "therapist",
   "social welfare", "social services", "social work", "social worker", "community",
   "support", "assistance", "aid", "benefit", "program", "housing", "shelter", "food",
   "nutrition", "poverty", "unemployment", "disability", "elder care", "child welfare",
   "family services", "rehabilitation", "advocacy", "resources", "outreach"]

/-- The stop-word list (line 520 of index.ts). -/
def stopWords : List String :=
  ["a", "an", "the", "and", "or", "but", "is", "are", "was", "were", "be", "been", "being",
   "in", "on", "at", "to", "for", "with", "by", "about", "like", "through", "over", "before",
   "after", "between", "under", "above", "of", "during", "what", "when", "where", "why", "how",
   "all", "any", "both", "each", "few", "more", "most", "some", "such", "no", "nor", "not",
   "only", "own", "same", "so", "than", "too", "very", "can", "will", "just", "should", "now"]

/-- The weighted out-of-domain indicator terms (lines 541-565 of
index.ts). -/
def otherDomainIndicators : List (String × Rat) :=
  [("computer", 8/10), ("software", 8/10), ("hardware", 8/10), ("quantum", 9/10),
   ("algorithm", 7/10), ("programming", 8/10), ("artificial intelligence", 8/10),
   ("machine learning", 8/10), ("physics", 8/10), ("chemistry", 7/10), ("astronomy", 9/10),
   ("space", 6/10), ("politics", 8/10), ("economics", 7/10), ("history", 7/10),
   ("literature", 7/10), ("philosophy", 8/10), ("religion", 8/10)]

/-- The shared topical keyword list used for both the query and the
candidate (lines 606-607 of index.ts). -/
def topicalKeywords : List String :=
  ["symptoms", "treatment", "cause", "manage", "diet", "medication", "insulin",
   "blood sugar", "lyme", "tick", "disease", "infection", "bite"]

/-- Accumulator-based split at whitespace characters (separator runs
produce empty tokens, exactly like splitting at every single
whitespace character). -/
def splitWsToks : List Char → List Char → List (List Char)
  | [], acc => [acc.reverse]
  | c :: rest, acc =>
    if jsWs c then acc.reverse :: splitWsToks rest []
    else splitWsToks rest (c :: acc)

/-- Fraction of significant query tokens (length above 2, not stop
words) matching the domain keyword set, lines 516-537 of index.ts.
The JS split on the whitespace regex produces at most empty boundary
tokens where this split produces empty tokens for each extra separator;
all empty tokens have length below 3 and are skipped, so the two are
equivalent. -/
def domainRelevanceQ (query : String) : Rat :=
  let words := (splitWsToks (strLower query).toList []).map (fun l => (⟨l⟩ : String))
  let sig := words.filter (fun w => ¬ (w.length ≤ 2) ∧ ¬ stopWords.contains w)
  let cnt := (sig.filter (fun w =>
    domainKeywords.any (fun kw => strIncludes w kw || strIncludes kw w))).length
  if sig.length > 0 then (cnt : Rat) / (sig.length : Rat) else 0

/-- Sum of indicator weights present in the query, capped at 1 (lines
568-577 of index.ts). -/
def otherDomainScoreQ (query : String) : Rat :=
  let ql := strLower query
  let s := (otherDomainIndicators.filter (fun p => strIncludes ql p.1)).foldl
    (fun a p => a + p.2) 0
  min s 1

/-- The final query domain relevance (line 581 of index.ts). -/
def queryDomainRelevance (query : String) : Rat :=
  domainRelevanceQ query * (1 - otherDomainScoreQ query)

/-- Does the query contain a topical keyword (lines 613-618 of
index.ts)? -/
def queryHasKeywordB (query : String) : Bool :=
  topicalKeywords.any (fun kw => strIncludes (strLower query) kw)

/-- The six-term gate of lines 593-603 of index.ts with JS left-to-right
short-circuit evaluation: the answer field is only dereferenced (and
must then be a string) when the question does not contain the first
term. -/
def termGate (qs : String) (af : Option Json) : Except Unit Bool :=
  let ql := strLower qs
  if strIncludes ql "diabetes" then Except.ok true
  else do
    let a ← asStrE af
    let al := strLower a
    Except.ok (strIncludes al "diabetes" || strIncludes ql "health" || strIncludes al "health" ||
      strIncludes ql "medical" || strIncludes al "medical" || strIncludes ql "lyme" ||
      strIncludes al "lyme" || strIncludes ql "tick" || strIncludes al "tick")

/-- The candidate-side topical keyword loop of lines 621-627 of
index.ts (break on first hit; the answer field is dereferenced on the
first keyword missing from the question). -/
def answerKeywordE (qs : String) (af : Option Json) : Except Unit Bool :=
  if strIncludes (strLower qs) "symptoms" then Except.ok true
  else do
    let a ← asStrE af
    Except.ok (topicalKeywords.any (fun kw =>
      strIncludes (strLower qs) kw || strIncludes (strLower a) kw))

/-- The per-candidate scoring step (forEach body, lines 419-640 of
index.ts).  Returns the candidate together with its final `score`
value; a JS TypeError (string method on a non-string, property read on
null) is `Except.error`, aborting the whole forEach as in the source,
where it is caught by the outer try/catch. -/
def scoreElem (query : String) (sscores : List (String × Rat)) (j : Json) :
    Except Unit (Json × JsNum) :=
  match j with
  | Json.obj fields =>
    match jlookup fields "relevanceScore" with
    | some rs => Except.ok (j, jsNumMul20 rs)
    | none =>
      let qf := jlookup fields "question"
      let af := jlookup fields "answer"
      do
        let step1 ←
          (if fieldTruthy qf then do
            let qs ← asStrE qf
            let cleanq := strLower ⟨stripTags qs.toList⟩
            let lq := strLower query
            if cleanq = lq || strIncludes cleanq lq || strIncludes lq cleanq then
              pure ((19 : Rat), true)
            else if strIncludes cleanq (strTake lq 20) || strIncludes lq (strTake cleanq 20) then
              pure ((18 : Rat), true)
            else pure ((1/10 : Rat), false)
          else pure (((1:Rat)/10, false) : Rat × Bool))
        let step2 ←
          (if step1.2 then pure step1
          else if sscores.isEmpty then pure step1
          else if fieldTruthy af then do
            let a ← asStrE af
            match (sscores.filter (fun p => strIncludes a (strTake p.1 50))).getLast? with
            | some p => do
              let _ ← asStrE qf
              pure (p.2, true)
            | none => pure step1
          else pure step1)
        if step2.2 then pure (j, some step2.1)
        else if queryDomainRelevance query < 3/10 then do
          let _ ← asStrE qf
          pure (j, some 5)
        else do
          let qs ← asStrE qf
          let gate ← termGate qs af
          if gate then do
            let ahk ← answerKeywordE qs af
            if queryHasKeywordB query && ahk then pure (j, some 16)
            else pure (j, some 10)
          else pure (j, some step2.1)
  | Json.null => Except.error ()
  | _ => Except.error ()

/-! ## Filtering and the final mapping -/

/-- The fixed confidence threshold (line 416 of index.ts). -/
def confidenceThreshold : Rat := 45/100

/-- Score-based branch of the filter (lines 651-657 of index.ts):
scores above 1 are normalized to the 0-1 range by dividing by 20. -/
def scorePasses (t : Rat) (s : JsNum) : Bool :=
  match s with
  | some q => (if q ≤ 1 then q else q / 20) ≥ t
  | none => false

/-- The confidence filter predicate (lines 643-661 of index.ts): an
explicit confidence field wins over the computed score. -/
def passesFilter (t : Rat) (sc : Json × JsNum) : Bool :=
  match jfield sc.1 "confidence" with
  | some c => jsGE c t
  | none => scorePasses t sc.2

/-- A returned question/answer pair.  The fields are JSON values: the
JS code passes whatever truthy field value it finds through to the
output object. -/
structure SimilarAnswer where
  question : Json
  answer : Json

/-- The canonical no-result answer of the pipeline. -/
def canonicalAnswer : SimilarAnswer := ⟨Json.str canonicalQ, Json.str canonicalA⟩

/-- The canonical single-element degraded result. -/
def canonicalList : List SimilarAnswer := [canonicalAnswer]

/-- The final mapping of a kept candidate (lines 675-687 of index.ts):
falsy fields become placeholders, and the sanitize-level rephrase
message is rewritten to the canonical answer text. -/
def finalizeAnswer (sc : Json × JsNum) : SimilarAnswer :=
  let qv :=
    match jfield sc.1 "question" with
    | some v => if jsTruthy v then v else Json.str "Question not available"
    | none => Json.str "Question not available"
  let a0 :=
    match jfield sc.1 "answer" with
    | some v => if jsTruthy v then v else Json.str "Answer not available"
    | none => Json.str "Answer not available"
  let av :=
    match a0 with
    | Json.str s => if s = rephraseA then Json.str canonicalA else Json.str s
    | _ => a0
  ⟨qv, av⟩

/-- The filter stage (lines 643-687 of index.ts), parameterized by the
threshold the code fixes at `confidenceThreshold`: keep passing
candidates, replace an empty kept set by the canonical no-result
answer, and map survivors to output pairs in insertion order. -/
def filterStage (t : Rat) (scored : List (Json × JsNum)) : List SimilarAnswer :=
  let kept := scored.filter (passesFilter t)
  if kept.isEmpty then canonicalList else kept.map finalizeAnswer

/-! ## findSimilarAnswers -/

/-- The body of the try block of findSimilarAnswers (lines 226-687 of
index.ts). -/
def tryBody (question : String) (resp : ProviderResponse) : Except Unit (List SimilarAnswer) :=
  let ans := effAnswer resp.answer
  if isErrorAnswer ans then Except.ok canonicalList
  else
    match normalizeStage ans with
    | NormResult.earlyNoResult => Except.ok canonicalList
    | NormResult.candidates parsed0 => do
      let parsed1 ← applyHitsFallback parsed0 resp.searchResults
      let scored ← parsed1.mapM (scoreElem question (buildSearchScores resp.searchResults))
      pure (filterStage confidenceThreshold scored)

/-- findSimilarAnswers as seen by its caller: `Except.error` would be a
rejection escaping to the caller; the outer catch (line 688) converts
every internal throw into the canonical no-result answer. -/
def findSimilarAnswersE (question : String) (resp : ProviderResponse) :
    Except Unit (List SimilarAnswer) :=
  match tryBody question resp with
  | Except.ok l => Except.ok l
  | Except.error _ => Except.ok canonicalList

/-- The value findSimilarAnswers resolves with. -/
def findSimilarAnswers (question : String) (resp : ProviderResponse) : List SimilarAnswer :=
  match findSimilarAnswersE question resp with
  | Except.ok l => l
  | Except.error _ => canonicalList

/-! ## submitQuestionDocuments (azureHelpers.ts) -/

/-- Model of `submitQuestionDocuments` (azureHelpers.ts lines
137-196) over two transport oracles: the search call and the chat
completion call, each either failing (a thrown or upstream error) or
returning data.  Both helper functions catch all their own errors, so
a response record is always produced; the two apology texts are the
catch-arm answers of the source. -/
def submitQuestionDocuments (searchOutcome : Except String (List SearchDoc))
    (gptOutcome : Except String String) : ProviderResponse :=
  match searchOutcome with
  | Except.error _ =>
    { answer := some "I apologize, but I encountered an error while processing your question with the available documents. Please try again later."
      searchResults := none }
  | Except.ok docs =>
    match gptOutcome with
    | Except.error _ =>
      { answer := some "I apologize, but I encountered an error while processing your question. Please try again later."
        searchResults := some docs }
    | Except.ok text =>
      { answer := some text, searchResults := some docs }

/-! ## RateLimiter (rateLimiter.js) -/

/-- The token bucket state: `tokensPerInterval` doubles as the
capacity, `tokens` is the current count (an integer in every reachable
state), `lastRefill` a millisecond timestamp. -/
structure RateLimiter where
  tokensPerInterval : Int
  intervalInMs : Int
  tokens : Int
  lastRefill : Int

/-- Construction (`new RateLimiter(tokensPerInterval, intervalInMs)`)
at time `now`. -/
def RateLimiter.mk0 (per interval now : Int) : RateLimiter :=
  { tokensPerInterval := per, intervalInMs := interval, tokens := per, lastRefill := now }

/-- `refillTokens` at time `now`: whole elapsed intervals are credited
(floor division, as `Math.floor` of the float quotient) and capped at
capacity; when nothing is credited the timestamp does not advance. -/
def RateLimiter.refillTokens (s : RateLimiter) (now : Int) : RateLimiter :=
  let timePassed := now - s.lastRefill
  let tokensToAdd := (Int.fdiv timePassed s.intervalInMs) * s.tokensPerInterval
  if 0 < tokensToAdd then
    { s with tokens := min s.tokensPerInterval (s.tokens + tokensToAdd), lastRefill := now }
  else s

/-- `waitForToken`: refill at call time `t0`; when below one token,
sleep `intervalInMs / tokensPerInterval` milliseconds and refill again
at wake time `t1`; then debit one token unconditionally. -/
def RateLimiter.waitForToken (s : RateLimiter) (t0 t1 : Int) : RateLimiter :=
  let s1 := s.refillTokens t0
  let s2 := if s1.tokens < 1 then s1.refillTokens t1 else s1
  { s2 with tokens := s2.tokens - 1 }

/-! ## Shared lemmas -/

/-- The error-message early return: any effective answer containing
one of the error markers yields the canonical result. -/
theorem canonical_of_errorAnswer (q : String) (resp : ProviderResponse)
    (h : isErrorAnswer (effAnswer resp.answer) = true) :
    findSimilarAnswers q resp = canonicalList := by
  unfold findSimilarAnswers findSimilarAnswersE tryBody
  simp [h]

/-- Monotonicity of the filter predicate in the threshold. -/
theorem passesFilter_mono {t1 t2 : Rat} (h : t1 ≤ t2) (sc : Json × JsNum)
    (hp : passesFilter t2 sc = true) : passesFilter t1 sc = true := by
  unfold passesFilter at hp ⊢
  cases hj : jfield sc.1 "confidence" with
  | some c =>
    rw [hj] at hp
    cases c with
    | num qq => simp [jsGE] at hp ⊢; exact le_trans h hp
    | null => simp [jsGE] at hp ⊢; exact le_trans h hp
    | bool b => cases b <;> simp [jsGE] at hp ⊢ <;> exact le_trans h hp
    | str s => simp [jsGE] at hp
    | arr xs => simp [jsGE] at hp
    | obj fs => simp [jsGE] at hp
  | none =>
    rw [hj] at hp
    cases s : sc.2 with
    | some v =>
      rw [s] at hp
      simp [scorePasses] at hp ⊢
      exact le_trans h hp
    | none => rw [s] at hp; simp [scorePasses] at hp

/-- Filtering with a weaker predicate keeps at least as many
elements. -/
theorem filter_length_mono {α : Type} (p q : α → Bool)
    (h : ∀ x, p x = true → q x = true) :
    ∀ l : List α, (l.filter p).length ≤ (l.filter q).length := by
  intro l
  induction l with
  | nil => simp
  | cons c rest ih =>
    by_cases hp : p c = true
    · have hq := h c hp
      simp [List.filter_cons, hp, hq]
      omega
    · have hp2 : p c = false := by
        cases hcl : p c
        · rfl
        · exact absurd hcl hp
      simp only [List.filter_cons, hp2]
      cases hq : q c <;> simp <;> omega

/-- The filter stage never returns an empty list. -/
theorem filterStage_length_pos (t : Rat) (scored : List (Json × JsNum)) :
    1 ≤ (filterStage t scored).length := by
  unfold filterStage
  by_cases h : (scored.filter (passesFilter t)).isEmpty
  · simp [h, canonicalList]
  · have hne : scored.filter (passesFilter t) ≠ [] := by
      intro hh
      rw [hh] at h
      simp at h
    simp only [h, if_neg, Bool.false_eq_true, not_false_iff, List.length_map]
    have := List.length_pos.mpr hne
    omega

/-! ## Claim C10 -/

/-- Claim C10: whenever the provider answer text (after the
ensure-answer defaulting) contains the substring "error", contains
"Cannot read properties", or starts with "Error:", findSimilarAnswers
returns exactly the single canonical no-result answer, regardless of
whether the text would have parsed as a valid JSON array. -/
theorem claim_C10_error_shortcircuit (q : String) (resp : ProviderResponse)
    (h : isErrorAnswer (effAnswer resp.answer) = true) :
    findSimilarAnswers q resp = canonicalList :=
  canonical_of_errorAnswer q resp h

/-- Witness for C10: a well-formed JSON array answer whose content
merely mentions the word "error" is discarded in favour of the
canonical no-result answer. -/
theorem claim_C10_witness :
    findSimilarAnswers "q"
      { answer := some "[\x7b\"question\":\"What is an error code?\",\"answer\":\"x\"\x7d]",
        searchResults := none } = canonicalList ∧
    (jsonParse "[\x7b\"question\":\"What is an error code?\",\"answer\":\"x\"\x7d]").isSome = true :=
  ⟨claim_C10_error_shortcircuit "q"
      { answer := some "[\x7b\"question\":\"What is an error code?\",\"answer\":\"x\"\x7d]",
        searchResults := none } (by with_unfolding_all decide),
   by with_unfolding_all decide⟩

/-! ## Claim C2 -/

/-- Claim C2: findSimilarAnswers never rejects: the model of the
function returns `Except.ok` for every query and every typed provider
response, and each transport failure of the two provider calls inside
submitQuestionDocuments surfaces only as the canonical no-result
content (the catch-arm apology text contains "error", so the pipeline
degrades internally). -/
theorem claim_C2_never_throws (q : String) (resp : ProviderResponse) :
    (∃ l, findSimilarAnswersE q resp = Except.ok l) ∧
    (∀ emsg gpt, findSimilarAnswers q
        (submitQuestionDocuments (Except.error emsg) gpt) = canonicalList) ∧
    (∀ docs emsg, findSimilarAnswers q
        (submitQuestionDocuments (Except.ok docs) (Except.error emsg)) = canonicalList) := by
  refine ⟨?_, ?_, ?_⟩
  · unfold findSimilarAnswersE
    cases tryBody q resp with
    | ok l => exact ⟨l, rfl⟩
    | error e => exact ⟨canonicalList, rfl⟩
  · intro emsg gpt
    apply canonical_of_errorAnswer
    simp only [submitQuestionDocuments]
    with_unfolding_all decide
  · intro docs emsg
    apply canonical_of_errorAnswer
    simp only [submitQuestionDocuments]
    with_unfolding_all decide

/-! ## Claim C3 -/

/-- Claim C3, counterexample: with capacity 5 and one refill of 5
tokens per 1000 ms, six back-to-back acquires (the sixth waiting the
prescribed 1000/5 = 200 ms before its second refill, which credits
nothing because no whole interval has elapsed) drive the token count
to -1, violating the claimed invariant `0 ≤ currentTokens`. -/
theorem claim_C3_counterexample :
    (((((((RateLimiter.mk0 5 1000 0).waitForToken 0 0).waitForToken 0 0).waitForToken 0 0).waitForToken
        0 0).waitForToken 0 0).waitForToken 0 200).tokens < 0 := by decide

/-- Claim C3, amended: only the upper half of the invariant holds.  If
the count is at most the capacity then it stays so after any refill and
after any acquire; the count can become negative after a successful
acquire (see the counterexample), so the lower bound is dropped. -/
theorem claim_C3_amended (s : RateLimiter) (now t0 t1 : Int)
    (h : s.tokens ≤ s.tokensPerInterval) :
    (s.refillTokens now).tokens ≤ (s.refillTokens now).tokensPerInterval ∧
    (s.waitForToken t0 t1).tokens ≤ (s.waitForToken t0 t1).tokensPerInterval := by
  have key : ∀ (st : RateLimiter) (n : Int), st.tokens ≤ st.tokensPerInterval →
      (st.refillTokens n).tokens ≤ (st.refillTokens n).tokensPerInterval ∧
      (st.refillTokens n).tokensPerInterval = st.tokensPerInterval := by
    intro st n hst
    simp only [RateLimiter.refillTokens]
    split
    · exact ⟨min_le_left _ _, rfl⟩
    · exact ⟨hst, rfl⟩
  refine ⟨(key s now h).1, ?_⟩
  unfold RateLimiter.waitForToken
  have h1 := key s t0 h
  by_cases hc : (s.refillTokens t0).tokens < 1
  · have h2 := key (s.refillTokens t0) t1 h1.1
    simp only [hc, if_pos]
    omega
  · simp only [hc, if_neg, not_false_iff]
    omega

/-- Witness for the amended C3 theorem at a concrete bucket. -/
theorem claim_C3_witness :
    ((RateLimiter.mk0 5 1000 0).refillTokens 100).tokens ≤
      ((RateLimiter.mk0 5 1000 0).refillTokens 100).tokensPerInterval ∧
    ((RateLimiter.mk0 5 1000 0).waitForToken 100 300).tokens ≤
      ((RateLimiter.mk0 5 1000 0).waitForToken 100 300).tokensPerInterval :=
  claim_C3_amended (RateLimiter.mk0 5 1000 0) 100 100 300 (by decide)

/-! ## Claim C9 -/

/-- Claim C9: for a fixed scored candidate list, raising the
confidence threshold never increases the number of answers the filter
stage returns (the canonical replacement of an empty kept set
included). -/
theorem claim_C9_threshold_mono (t1 t2 : Rat) (scored : List (Json × JsNum))
    (h : t1 ≤ t2) :
    (filterStage t2 scored).length ≤ (filterStage t1 scored).length := by
  have hmono := filter_length_mono (passesFilter t2) (passesFilter t1)
    (fun x => passesFilter_mono h x) scored
  unfold filterStage
  by_cases h2 : (scored.filter (passesFilter t2)).isEmpty
  · simp only [h2, if_pos]
    exact filterStage_length_pos t1 scored
  · have h1 : (scored.filter (passesFilter t1)).isEmpty = false := by
      cases hcl : (scored.filter (passesFilter t1)).isEmpty
      · rfl
      · exfalso
        have : scored.filter (passesFilter t1) = [] := List.isEmpty_iff.mp hcl
        rw [this] at hmono
        simp only [List.length_nil, Nat.le_zero] at hmono
        have h2ne : scored.filter (passesFilter t2) ≠ [] := by
          intro hh
          rw [hh] at h2
          simp at h2
        have := List.length_pos.mpr h2ne
        omega
    simp only [h2, h1, Bool.false_eq_true, if_neg, not_false_iff, List.length_map]
    exact hmono

/-- Witness for C9 at concrete thresholds and candidates. -/
theorem claim_C9_witness :
    (filterStage (6/10) [(Json.obj [("question", Json.str "q")], some 10)]).length ≤
      (filterStage (45/100) [(Json.obj [("question", Json.str "q")], some 10)]).length :=
  claim_C9_threshold_mono (45/100) (6/10)
    [(Json.obj [("question", Json.str "q")], some 10)] (by with_unfolding_all decide)

/-! ## Claim C1 -/

/-- Reduction of bind over a known ok value. -/
theorem except_bind_ok {ε α β : Type} (a : α) (f : α → Except ε β) :
    ((Except.ok a : Except ε α) >>= f) = f a := rfl

/-- Reduction of bind over a known error value. -/
theorem except_bind_err {ε α β : Type} (e : ε) (f : α → Except ε β) :
    ((Except.error e : Except ε α) >>= f) = Except.error e := rfl

/-- Pure in the Except monad is ok. -/
theorem except_pure_eq {ε α : Type} (a : α) : (pure a : Except ε α) = Except.ok a := rfl

/-- Every result of findSimilarAnswers is a filter-stage output at the
fixed threshold: the canonical early returns coincide with the filter
stage applied to an empty scored list. -/
theorem exists_filterStage (q : String) (resp : ProviderResponse) :
    ∃ scored, findSimilarAnswers q resp = filterStage confidenceThreshold scored := by
  by_cases he : isErrorAnswer (effAnswer resp.answer) = true
  · exact ⟨[], by simp only [findSimilarAnswers, findSimilarAnswersE, tryBody, he, if_pos]; rfl⟩
  · have he2 : isErrorAnswer (effAnswer resp.answer) = false := by
      cases hcl : isErrorAnswer (effAnswer resp.answer)
      · rfl
      · exact absurd hcl he
    cases hn : normalizeStage (effAnswer resp.answer) with
    | earlyNoResult =>
      exact ⟨[], by
        simp only [findSimilarAnswers, findSimilarAnswersE, tryBody, he2, hn,
          Bool.false_eq_true, if_neg, not_false_iff]
        rfl⟩
    | candidates parsed0 =>
      cases hf : applyHitsFallback parsed0 resp.searchResults with
      | error e =>
        exact ⟨[], by
          simp only [findSimilarAnswers, findSimilarAnswersE, tryBody, he2, hn, hf,
            Bool.false_eq_true, if_neg, not_false_iff, except_bind_err]
          rfl⟩
      | ok parsed1 =>
        cases hs : parsed1.mapM (scoreElem q (buildSearchScores resp.searchResults)) with
        | error e =>
          exact ⟨[], by
            simp only [findSimilarAnswers, findSimilarAnswersE, tryBody, he2, hn, hf, hs,
              Bool.false_eq_true, if_neg, not_false_iff, except_bind_err, except_bind_ok]
            rfl⟩
        | ok scored =>
          exact ⟨scored, by
            simp only [findSimilarAnswers, findSimilarAnswersE, tryBody, he2, hn, hf, hs,
              Bool.false_eq_true, if_neg, not_false_iff, except_bind_ok, except_pure_eq]⟩

/-- Claim C1, amended: findSimilarAnswers always returns at least one
answer, and the returned list is a filter-stage output: the kept
candidates are a sublist of the scored candidates in their original
(insertion) order, never re-sorted by score — but there is no cap at 3
inside findSimilarAnswers (the counterexample exhibits 4 returned
answers; the 3-cap of the specification lives in the route handler
that posts to the CMS, outside the pipeline function). -/
theorem claim_C1_amended (q : String) (resp : ProviderResponse) :
    1 ≤ (findSimilarAnswers q resp).length ∧
    ∃ scored, findSimilarAnswers q resp = filterStage confidenceThreshold scored ∧
      (scored.filter (passesFilter confidenceThreshold)).Sublist scored := by
  obtain ⟨scored, hs⟩ := exists_filterStage q resp
  refine ⟨?_, scored, hs, List.filter_sublist _⟩
  rw [hs]
  exact filterStage_length_pos _ _

/-- A provider answer consisting of four explicitly scored pairs. -/
def mkScoredPairTxt (q a : String) : String :=
  "\x7b\"question\":\"" ++ q ++ "\",\"answer\":\"" ++ a ++ "\",\"relevanceScore\":0.9\x7d"

/-- Four-high-scoring-pairs answer text. -/
def fourPairsTxt : String :=
  "[" ++ mkScoredPairTxt "q1" "a1" ++ "," ++ mkScoredPairTxt "q2" "a2" ++ ","
    ++ mkScoredPairTxt "q3" "a3" ++ "," ++ mkScoredPairTxt "q4" "a4" ++ "]"

/-- A provider response with four high-scoring pairs and no search
results. -/
def respFour : ProviderResponse := { answer := some fourPairsTxt, searchResults := none }

set_option maxRecDepth 100000 in
/-- Claim C1, counterexample: a provider response holding four valid
pairs with explicit relevance score 0.9 makes findSimilarAnswers
return four answers — more than the claimed fixed maximum of 3. -/
theorem claim_C1_counterexample : (findSimilarAnswers "whatever" respFour).length = 4 := by
  with_unfolding_all decide

/-! ## Claim C7 -/

/-- Claim C7: when the normalization stage yields exactly the single
canonical no-result candidate and the retrieval call returned at least
one hit, one candidate is synthesized per hit — question the hit
title, answer the hit content — carrying the explicit relevance score
min(hitScore / 5, 0.95); the scorer converts that score to the 0-20
scale by multiplying by 20, and the same threshold filter is then
applied to the converted score (the synthesized candidate has no
confidence field, so the filter takes its score branch). -/
theorem claim_C7_hits_fallback (query : String) (sscores : List (String × Rat))
    (resp : ProviderResponse) (hits : List SearchDoc) (p : Json)
    (hsr : resp.searchResults = some hits) (hne : hits ≠ [])
    (hnorm : normalizeStage (effAnswer resp.answer) = NormResult.candidates [p])
    (hq : jsGetProp p "question" = Except.ok (some (Json.str canonicalQ))) :
    applyHitsFallback [p] resp.searchResults = Except.ok (hits.mapIdx synthFromHit) ∧
    ∀ i doc, hits.get? i = some doc → ∀ t c, doc.title = some t → ¬ t = "" →
      doc.content = some c →
      synthFromHit i doc = Json.obj [("question", Json.str t), ("answer", Json.str c),
        ("relevanceScore", Json.num (min (numFalsyOr doc.searchScore
          (numFalsyOr doc.rerankerScore 0) / 5) (95/100)))] ∧
      scoreElem query sscores (synthFromHit i doc) =
        Except.ok (synthFromHit i doc, some (20 * min (numFalsyOr doc.searchScore
          (numFalsyOr doc.rerankerScore 0) / 5) (95/100))) ∧
      ∀ t2 : Rat, passesFilter t2 (synthFromHit i doc, some (20 * min (numFalsyOr doc.searchScore
          (numFalsyOr doc.rerankerScore 0) / 5) (95/100))) =
        scorePasses t2 (some (20 * min (numFalsyOr doc.searchScore
          (numFalsyOr doc.rerankerScore 0) / 5) (95/100))) := by
  constructor
  · rw [hsr]
    simp only [applyHitsFallback]
    rw [hq]
    simp only [except_bind_ok, except_pure_eq]
    have hlen : hits.length > 0 := List.length_pos.mpr hne
    simp [hlen]
  · intro i doc hget t c ht htne hc
    have hsynth : synthFromHit i doc = Json.obj [("question", Json.str t),
        ("answer", Json.str c), ("relevanceScore", Json.num (min (numFalsyOr doc.searchScore
          (numFalsyOr doc.rerankerScore 0) / 5) (95/100)))] := by
      unfold synthFromHit
      rw [ht, hc]
      simp [htne]
    refine ⟨hsynth, ?_, ?_⟩
    · rw [hsynth]
      unfold scoreElem
      simp [jlookup, jsNumMul20]
    · intro t2
      rw [hsynth]
      unfold passesFilter
      simp [jfield, jlookup]

/-- The fallback pair produced by a total normalization failure. -/
def fallbackPairJson : Json :=
  Json.obj [("question", Json.str canonicalQ), ("answer", Json.str rephraseA)]

/-- First concrete retrieval hit. -/
def hitOne : SearchDoc :=
  { content := some "Content one", title := some "Title one",
    searchScore := some (75/10), rerankerScore := none, score := none }

/-- Second concrete retrieval hit. -/
def hitTwo : SearchDoc :=
  { content := some "Content two", title := some "Title two",
    searchScore := some (32/10), rerankerScore := none, score := none }

/-- A provider response whose completion text is unusable prose while
retrieval returned two hits. -/
def respProseWithHits : ProviderResponse :=
  { answer := some "I dont know", searchResults := some [hitOne, hitTwo] }

set_option maxRecDepth 100000 in
/-- Witness for C7 at a concrete response: the prose answer
normalizes to the canonical candidate, the two hits are synthesized,
and the first synthesized candidate scores 20 times its capped
normalized hit score. -/
theorem claim_C7_witness :
    applyHitsFallback [fallbackPairJson] respProseWithHits.searchResults =
      Except.ok ([hitOne, hitTwo].mapIdx synthFromHit) ∧
    scoreElem "q" [] (synthFromHit 0 hitOne) =
      Except.ok (synthFromHit 0 hitOne, some (20 * min (numFalsyOr hitOne.searchScore
        (numFalsyOr hitOne.rerankerScore 0) / 5) (95/100))) := by
  have h := claim_C7_hits_fallback "q" [] respProseWithHits [hitOne, hitTwo] fallbackPairJson
    rfl (by simp) (by with_unfolding_all rfl) (by with_unfolding_all rfl)
  refine ⟨h.1, ?_⟩
  exact ((h.2 0 hitOne rfl "Title one" "Content one" rfl (by decide) rfl).2).1

/-! ## Claim C6 -/

/-- Claim C6, amended: for a candidate without explicit relevanceScore
whose question field is a NON-EMPTY string (a falsy empty question
skips the match branch entirely, see the counterexample), the scorer
assigns 19/20 when the tag-stripped lowercased question equals,
contains, or is contained in the lowercased query, else 18/20 when the
first 20 characters of either string are contained in the other; both
scores pass the 45 percent confidence threshold (in the absence of an
explicit confidence field). -/
theorem claim_C6_amended (query : String) (sscores : List (String × Rat))
    (fields : List (String × Json)) (q : String)
    (hrs : jlookup fields "relevanceScore" = none)
    (hq : jlookup fields "question" = some (Json.str q))
    (hne : ¬ q = "")
    (hconf : jlookup fields "confidence" = none) :
    (((decide (strLower ⟨stripTags q.toList⟩ = strLower query) ||
        strIncludes (strLower ⟨stripTags q.toList⟩) (strLower query) ||
        strIncludes (strLower query) (strLower ⟨stripTags q.toList⟩)) = true) →
      scoreElem query sscores (Json.obj fields) = Except.ok (Json.obj fields, some 19) ∧
      passesFilter confidenceThreshold (Json.obj fields, some 19) = true) ∧
    (((decide (strLower ⟨stripTags q.toList⟩ = strLower query) ||
        strIncludes (strLower ⟨stripTags q.toList⟩) (strLower query) ||
        strIncludes (strLower query) (strLower ⟨stripTags q.toList⟩)) = false) →
      ((strIncludes (strLower ⟨stripTags q.toList⟩) (strTake (strLower query) 20) ||
        strIncludes (strLower query) (strTake (strLower ⟨stripTags q.toList⟩) 20)) = true) →
      scoreElem query sscores (Json.obj fields) = Except.ok (Json.obj fields, some 18) ∧
      passesFilter confidenceThreshold (Json.obj fields, some 18) = true) := by
  have hfilter : ∀ sc : Rat, scorePasses confidenceThreshold (some sc) = true →
      passesFilter confidenceThreshold (Json.obj fields, some sc) = true := by
    intro sc hsc
    unfold passesFilter
    simp only [jfield, hconf]
    exact hsc
  constructor
  · intro h19
    constructor
    · simp only [scoreElem, hrs, hq, fieldTruthy, jsTruthy, asStrE, except_bind_ok,
        except_pure_eq, h19]
      simp [hne, except_bind_ok, except_pure_eq]
    · exact hfilter 19 (by with_unfolding_all decide)
  · intro h19 h18
    constructor
    · simp only [scoreElem, hrs, hq, fieldTruthy, jsTruthy, asStrE, except_bind_ok,
        except_pure_eq, h19, h18]
      simp [hne, except_bind_ok, except_pure_eq]
    · exact hfilter 18 (by with_unfolding_all decide)

set_option maxRecDepth 10000 in
/-- Claim C6, counterexample: a candidate whose question is the empty
string — which, tag-stripped and lowercased, is trivially contained in
the query text, so the claim as stated demands a 19/20 score — skips
the match branch (the raw question is falsy) and falls through to the
domain heuristic, scoring a fixed 5/20 for the off-domain query
"hello world". -/
theorem claim_C6_counterexample :
    strIncludes (strLower "hello world") (strLower ⟨stripTags "".toList⟩) = true ∧
    scoreElem "hello world" [] (Json.obj [("question", Json.str ""), ("answer", Json.str "x")]) =
      Except.ok (Json.obj [("question", Json.str ""), ("answer", Json.str "x")], some 5) := by
  constructor
  · with_unfolding_all decide
  · with_unfolding_all rfl

set_option maxRecDepth 10000 in
/-- Witness for the amended C6 theorem: scenario A of the
specification — query "symptoms of diabetes" is a substring of the
candidate question, so the candidate scores 19/20 and passes the
threshold. -/
theorem claim_C6_witness :
    scoreElem "symptoms of diabetes" []
      (Json.obj [("question", Json.str "What are the symptoms of diabetes?"),
        ("answer", Json.str "Increased thirst")]) =
      Except.ok (Json.obj [("question", Json.str "What are the symptoms of diabetes?"),
        ("answer", Json.str "Increased thirst")], some 19) ∧
    passesFilter confidenceThreshold
      (Json.obj [("question", Json.str "What are the symptoms of diabetes?"),
        ("answer", Json.str "Increased thirst")], some 19) = true :=
  (claim_C6_amended "symptoms of diabetes" []
    [("question", Json.str "What are the symptoms of diabetes?"),
      ("answer", Json.str "Increased thirst")]
    "What are the symptoms of diabetes?"
    (by with_unfolding_all rfl) (by with_unfolding_all rfl) (by decide)
    (by with_unfolding_all rfl)).1 (by with_unfolding_all decide)

/-! ## Claim C8 -/

/-- Reduction of the scorer to the domain-heuristic branch: a
candidate with string question and answer fields, no explicit
relevance score, failing both question-match conditions and matching
no search-score content, is scored by the domain heuristic of lines
475-639 of index.ts. -/
theorem scoreElem_reaches_domain (query : String) (sscores : List (String × Rat))
    (fields : List (String × Json)) (qs as : String)
    (hrs : jlookup fields "relevanceScore" = none)
    (hq : jlookup fields "question" = some (Json.str qs))
    (ha : jlookup fields "answer" = some (Json.str as))
    (hm1 : (decide (strLower ⟨stripTags qs.toList⟩ = strLower query) ||
        strIncludes (strLower ⟨stripTags qs.toList⟩) (strLower query) ||
        strIncludes (strLower query) (strLower ⟨stripTags qs.toList⟩)) = false)
    (hm2 : (strIncludes (strLower ⟨stripTags qs.toList⟩) (strTake (strLower query) 20) ||
        strIncludes (strLower query) (strTake (strLower ⟨stripTags qs.toList⟩) 20)) = false)
    (hcontent : (sscores.filter (fun p => strIncludes as (strTake p.1 50))).getLast? = none) :
    scoreElem query sscores (Json.obj fields) =
      (if queryDomainRelevance query < 3/10 then Except.ok (Json.obj fields, some 5)
      else do
        let gate ← termGate qs (some (Json.str as))
        if gate then do
          let ahk ← answerKeywordE qs (some (Json.str as))
          if queryHasKeywordB query && ahk then Except.ok (Json.obj fields, some 16)
          else Except.ok (Json.obj fields, some 10)
        else Except.ok (Json.obj fields, some (1/10))) := by
  simp only [scoreElem, hrs, hq, ha, fieldTruthy, jsTruthy, asStrE, except_bind_ok,
    except_pure_eq, hm1, hm2, hcontent]
  simp [except_bind_ok, except_pure_eq]

/-- Claim C8, amended: a candidate reaching the domain heuristic is
scored 5/20 when the query domain relevance (keyword fraction times
one minus the capped out-of-domain score) is below 0.3; otherwise the
16/20 and 10/20 boosts apply ONLY when the candidate text contains one
of the fixed markers diabetes/health/medical/lyme/tick (the term
gate): 16/20 when additionally both the query and the candidate
contain a topical keyword, 10/20 otherwise; a candidate passing the
relevance bar but containing none of the markers keeps the default
score 0.1, not 16 or 10 as the claim states. -/
theorem claim_C8_amended (query : String) (sscores : List (String × Rat))
    (fields : List (String × Json)) (qs as : String)
    (hrs : jlookup fields "relevanceScore" = none)
    (hq : jlookup fields "question" = some (Json.str qs))
    (ha : jlookup fields "answer" = some (Json.str as))
    (hm1 : (decide (strLower ⟨stripTags qs.toList⟩ = strLower query) ||
        strIncludes (strLower ⟨stripTags qs.toList⟩) (strLower query) ||
        strIncludes (strLower query) (strLower ⟨stripTags qs.toList⟩)) = false)
    (hm2 : (strIncludes (strLower ⟨stripTags qs.toList⟩) (strTake (strLower query) 20) ||
        strIncludes (strLower query) (strTake (strLower ⟨stripTags qs.toList⟩) 20)) = false)
    (hcontent : (sscores.filter (fun p => strIncludes as (strTake p.1 50))).getLast? = none) :
    (queryDomainRelevance query < 3/10 →
      scoreElem query sscores (Json.obj fields) = Except.ok (Json.obj fields, some 5)) ∧
    (¬ queryDomainRelevance query < 3/10 →
      (termGate qs (some (Json.str as)) = Except.ok true →
        (answerKeywordE qs (some (Json.str as)) = Except.ok true →
          queryHasKeywordB query = true →
          scoreElem query sscores (Json.obj fields) = Except.ok (Json.obj fields, some 16)) ∧
        (answerKeywordE qs (some (Json.str as)) = Except.ok false →
          scoreElem query sscores (Json.obj fields) = Except.ok (Json.obj fields, some 10)) ∧
        (queryHasKeywordB query = false →
          answerKeywordE qs (some (Json.str as)) = Except.ok true →
          scoreElem query sscores (Json.obj fields) = Except.ok (Json.obj fields, some 10))) ∧
      (termGate qs (some (Json.str as)) = Except.ok false →
        scoreElem query sscores (Json.obj fields) =
          Except.ok (Json.obj fields, some (1/10)))) := by
  have hred := scoreElem_reaches_domain query sscores fields qs as hrs hq ha hm1 hm2 hcontent
  constructor
  · intro hdr
    rw [hred, if_pos hdr]
  · intro hdr
    refine ⟨?_, ?_⟩
    · intro htg
      refine ⟨?_, ?_, ?_⟩
      · intro hak hqh
        rw [hred, if_neg hdr, htg, except_bind_ok, hak, except_bind_ok]
        simp [hqh]
      · intro hak
        rw [hred, if_neg hdr, htg, except_bind_ok, hak, except_bind_ok]
        simp
      · intro hqh hak
        rw [hred, if_neg hdr, htg, except_bind_ok, hak, except_bind_ok]
        simp [hqh]
    · intro htg
      rw [hred, if_neg hdr, htg, except_bind_ok]
      simp

set_option maxRecDepth 100000 in
/-- Claim C8, counterexample: for the on-domain query "diabetes
treatment" (domain relevance 1) and a candidate sharing the topical
keywords treatment and insulin with the query, the claim prescribes
16/20; the code keeps the default score 0.1 because the candidate
text contains none of diabetes/health/medical/lyme/tick. -/
theorem claim_C8_counterexample :
    (3/10 : Rat) ≤ queryDomainRelevance "diabetes treatment" ∧
    queryHasKeywordB "diabetes treatment" = true ∧
    (topicalKeywords.any (fun kw => strIncludes (strLower "Best treatment approach") kw ||
      strIncludes (strLower "Use insulin daily") kw)) = true ∧
    scoreElem "diabetes treatment" []
      (Json.obj [("question", Json.str "Best treatment approach"),
        ("answer", Json.str "Use insulin daily")]) =
      Except.ok (Json.obj [("question", Json.str "Best treatment approach"),
        ("answer", Json.str "Use insulin daily")], some (1/10)) := by
  refine ⟨?_, ?_, ?_, ?_⟩
  · with_unfolding_all decide
  · with_unfolding_all decide
  · with_unfolding_all decide
  · with_unfolding_all rfl

set_option maxRecDepth 100000 in
/-- Witness for the amended C8 theorem: the low-relevance case at the
off-domain query "hello world" (score 5), and the 16/20 case at the
query "diabetes treatment" with a candidate whose answer mentions
diabetes and insulin. -/
theorem claim_C8_witness :
    scoreElem "hello world" []
      (Json.obj [("question", Json.str "Anything here"), ("answer", Json.str "x")]) =
      Except.ok (Json.obj [("question", Json.str "Anything here"),
        ("answer", Json.str "x")], some 5) ∧
    scoreElem "diabetes treatment" []
      (Json.obj [("question", Json.str "Health advice overview"),
        ("answer", Json.str "Take insulin for diabetes care")]) =
      Except.ok (Json.obj [("question", Json.str "Health advice overview"),
        ("answer", Json.str "Take insulin for diabetes care")], some 16) := by
  constructor
  · exact (claim_C8_amended "hello world" []
      [("question", Json.str "Anything here"), ("answer", Json.str "x")]
      "Anything here" "x"
      (by with_unfolding_all rfl) (by with_unfolding_all rfl) (by with_unfolding_all rfl)
      (by with_unfolding_all decide) (by with_unfolding_all decide)
      (by with_unfolding_all rfl)).1 (by with_unfolding_all decide)
  · exact (((claim_C8_amended "diabetes treatment" []
      [("question", Json.str "Health advice overview"),
        ("answer", Json.str "Take insulin for diabetes care")]
      "Health advice overview" "Take insulin for diabetes care"
      (by with_unfolding_all rfl) (by with_unfolding_all rfl) (by with_unfolding_all rfl)
      (by with_unfolding_all decide) (by with_unfolding_all decide)
      (by with_unfolding_all rfl)).2 (by with_unfolding_all decide)).1
      (by with_unfolding_all rfl)).1
      (by with_unfolding_all rfl) (by with_unfolding_all decide)

/-! ## Parse of stringified pairs (totality of the normalizer) -/

/-- Hex digits printed by `hexDigit` read back to their value. -/
theorem hexVal_hexDigit (n : Nat) (h : n < 16) : hexVal (hexDigit n) = some n := by
  interval_cases n <;> decide

/-- One string-parser step over a unicode escape of a low code
point. -/
theorem pStrF_u (fuel : Nat) (n : Nat) (h : n < 32) (rest3 : List Char) :
    pStrF (fuel + 1)
      ('\\' :: 'u' :: '0' :: '0' :: hexDigit (n / 16) :: hexDigit (n % 16) :: rest3) =
    (pStrF fuel rest3).map (fun p => (Char.ofNat (n / 16 * 16 + n % 16) :: p.1, p.2)) := by
  have hvh := hexVal_hexDigit (n / 16) (by omega)
  have hvl := hexVal_hexDigit (n % 16) (by omega)
  have h0 : hexVal '0' = some 0 := by decide
  simp [pStrF, hvh, hvl, h0]

/-- One string-parser step over a named escape. -/
theorem pStrF_esc_pair (fuel : Nat) (e u : Char) (hu : unescChar e = some u)
    (hne : ¬ e = 'u') (rest2 : List Char) :
    pStrF (fuel + 1) ('\\' :: e :: rest2) =
    (pStrF fuel rest2).map (fun p => (u :: p.1, p.2)) := by
  simp [pStrF, hne, hu]

/-- One string-parser step over a plain character. -/
theorem pStrF_plain (fuel : Nat) (c : Char) (h1 : ¬ c = '"') (h2 : ¬ c = '\\')
    (h3 : ¬ c.toNat < 32) (rest : List Char) :
    pStrF (fuel + 1) (c :: rest) = (pStrF fuel rest).map (fun p => (c :: p.1, p.2)) := by
  simp [pStrF, h1, h2, h3]

/-- Unfolding of the escape over a cons. -/
theorem jEscape_cons (c : Char) (cs : List Char) :
    jEscape (c :: cs) = jEscapeChar c ++ jEscape cs := by
  simp [jEscape]

/-- The escaped form is at least as long as the original. -/
theorem jEscape_len_ge (s : List Char) : s.length ≤ (jEscape s).length := by
  induction s with
  | nil => simp [jEscape]
  | cons c cs ih =>
    have h1 : 1 ≤ (jEscapeChar c).length := by
      unfold jEscapeChar
      repeat' split
      all_goals simp
    rw [jEscape_cons]
    simp only [List.length_append, List.length_cons]
    omega

/-- The fueled string parser consumes an escaped string followed by a
quote, leaving the rest, for any surplus fuel. -/
theorem pStrF_escape (s : List Char) : ∀ (k : Nat) (rest : List Char),
    ∃ t, pStrF (s.length + 1 + k) (jEscape s ++ '"' :: rest) = some (t, rest) := by
  induction s with
  | nil =>
    intro k rest
    refine ⟨[], ?_⟩
    simp only [jEscape, List.map_nil, List.flatten_nil, List.nil_append, List.length_nil]
    have h0 : 0 + 1 + k = k + 1 := by omega
    rw [h0]
    simp [pStrF]
  | cons c cs ih =>
    intro k rest
    obtain ⟨t, ht⟩ := ih k rest
    rw [jEscape_cons]
    have hlen : (c :: cs).length + 1 + k = (cs.length + 1 + k) + 1 := by simp; omega
    rw [hlen]
    by_cases h1 : c = '"'
    · refine ⟨'"' :: t, ?_⟩
      have he : jEscapeChar c = ['\\', '"'] := by simp [jEscapeChar, h1]
      rw [he]
      simp only [List.cons_append, List.nil_append]
      rw [pStrF_esc_pair (cs.length + 1 + k) '"' '"' (by decide) (by decide)
        (jEscape cs ++ '"' :: rest), ht]
      rfl
    · by_cases h2 : c = '\\'
      · refine ⟨'\\' :: t, ?_⟩
        have he : jEscapeChar c = ['\\', '\\'] := by simp [jEscapeChar, h1, h2]
        rw [he]
        simp only [List.cons_append, List.nil_append]
        rw [pStrF_esc_pair (cs.length + 1 + k) '\\' '\\' (by decide) (by decide)
          (jEscape cs ++ '"' :: rest), ht]
        rfl
      · by_cases h3 : c.toNat = 10
        · refine ⟨Char.ofNat 10 :: t, ?_⟩
          have he : jEscapeChar c = ['\\', 'n'] := by simp [jEscapeChar, h1, h2, h3]
          rw [he]
          simp only [List.cons_append, List.nil_append]
          rw [pStrF_esc_pair (cs.length + 1 + k) 'n' (Char.ofNat 10) (by decide) (by decide)
            (jEscape cs ++ '"' :: rest), ht]
          rfl
        · by_cases h4 : c.toNat = 13
          · refine ⟨Char.ofNat 13 :: t, ?_⟩
            have he : jEscapeChar c = ['\\', 'r'] := by simp [jEscapeChar, h1, h2, h3, h4]
            rw [he]
            simp only [List.cons_append, List.nil_append]
            rw [pStrF_esc_pair (cs.length + 1 + k) 'r' (Char.ofNat 13) (by decide) (by decide)
              (jEscape cs ++ '"' :: rest), ht]
            rfl
          · by_cases h5 : c.toNat = 9
            · refine ⟨Char.ofNat 9 :: t, ?_⟩
              have he : jEscapeChar c = ['\\', 't'] := by simp [jEscapeChar, h1, h2, h3, h4, h5]
              rw [he]
              simp only [List.cons_append, List.nil_append]
              rw [pStrF_esc_pair (cs.length + 1 + k) 't' (Char.ofNat 9) (by decide) (by decide)
                (jEscape cs ++ '"' :: rest), ht]
              rfl
            · by_cases h6 : c.toNat = 8
              · refine ⟨Char.ofNat 8 :: t, ?_⟩
                have he : jEscapeChar c = ['\\', 'b'] := by
                  simp [jEscapeChar, h1, h2, h3, h4, h5, h6]
                rw [he]
                simp only [List.cons_append, List.nil_append]
                rw [pStrF_esc_pair (cs.length + 1 + k) 'b' (Char.ofNat 8) (by decide)
                  (by decide) (jEscape cs ++ '"' :: rest), ht]
                rfl
              · by_cases h7 : c.toNat = 12
                · refine ⟨Char.ofNat 12 :: t, ?_⟩
                  have he : jEscapeChar c = ['\\', 'f'] := by
                    simp [jEscapeChar, h1, h2, h3, h4, h5, h6, h7]
                  rw [he]
                  simp only [List.cons_append, List.nil_append]
                  rw [pStrF_esc_pair (cs.length + 1 + k) 'f' (Char.ofNat 12) (by decide)
                    (by decide) (jEscape cs ++ '"' :: rest), ht]
                  rfl
                · by_cases h8 : c.toNat < 32
                  · refine ⟨Char.ofNat (c.toNat / 16 * 16 + c.toNat % 16) :: t, ?_⟩
                    have he : jEscapeChar c = ['\\', 'u', '0', '0',
                        hexDigit (c.toNat / 16), hexDigit (c.toNat % 16)] := by
                      simp [jEscapeChar, h1, h2, h3, h4, h5, h6, h7, h8]
                    rw [he]
                    simp only [List.cons_append, List.nil_append]
                    rw [pStrF_u (cs.length + 1 + k) c.toNat h8 (jEscape cs ++ '"' :: rest), ht]
                    rfl
                  · refine ⟨c :: t, ?_⟩
                    have he : jEscapeChar c = [c] := by
                      simp [jEscapeChar, h1, h2, h3, h4, h5, h6, h7, h8]
                    rw [he]
                    simp only [List.cons_append, List.nil_append]
                    rw [pStrF_plain (cs.length + 1 + k) c h1 h2 h8
                      (jEscape cs ++ '"' :: rest), ht]
                    rfl

/-- The wrapper string parser consumes an escaped string followed by a
quote. -/
theorem pStr_escape (s rest : List Char) :
    ∃ t, pStr (jEscape s ++ '"' :: rest) = some (t, rest) := by
  have hge := jEscape_len_ge s
  obtain ⟨k, hk⟩ : ∃ k, (jEscape s ++ '"' :: rest).length + 1 = s.length + 1 + k :=
    ⟨(jEscape s).length - s.length + rest.length + 1, by simp [List.length_append]; omega⟩
  unfold pStr
  rw [hk]
  exact pStrF_escape s k rest

/-- The string parser reads the literal key question up to its closing
quote. -/
theorem pStr_qkey (rest : List Char) :
    pStr ('q' :: 'u' :: 'e' :: 's' :: 't' :: 'i' :: 'o' :: 'n' :: '"' :: rest) =
      some (['q', 'u', 'e', 's', 't', 'i', 'o', 'n'], rest) := rfl

/-- The string parser reads the literal key answer up to its closing
quote. -/
theorem pStr_akey (rest : List Char) :
    pStr ('a' :: 'n' :: 's' :: 'w' :: 'e' :: 'r' :: '"' :: rest) =
      some (['a', 'n', 's', 'w', 'e', 'r'], rest) := rfl

/-- Whitespace skipping is the identity on a non-whitespace head. -/
theorem skipJWs_cons (c : Char) (l : List Char) (h : jsonWs c = false) :
    skipJWs (c :: l) = c :: l := by
  simp [skipJWs, List.dropWhile, h]

/-- The field parser consumes a printed two-field object body (from
the quote of the first key through the closing brace), given that the
two value strings parse. -/
theorem pFields_two_gen (k : Nat) (B C tq ta rest : List Char)
    (hB : pStr B = some (tq, ',' :: '"' :: 'a' :: 'n' :: 's' :: 'w' :: 'e' :: 'r' :: '"' ::
      ':' :: '"' :: C))
    (hC : pStr C = some (ta, rbrace :: rest)) :
    pFields (k + 3) ('"' :: 'q' :: 'u' :: 'e' :: 's' :: 't' :: 'i' :: 'o' :: 'n' :: '"' ::
        ':' :: '"' :: B) =
      some ([((⟨['q', 'u', 'e', 's', 't', 'i', 'o', 'n']⟩ : String), Json.str ⟨tq⟩),
        ((⟨['a', 'n', 's', 'w', 'e', 'r']⟩ : String), Json.str ⟨ta⟩)], rest) := by
  have h3 : k + 3 = (k + 2) + 1 := by omega
  have h2 : k + 2 = (k + 1) + 1 := by omega
  have hw0 : skipJWs (':' :: '"' :: B) = ':' :: '"' :: B := skipJWs_cons _ _ (by decide)
  have hw1 : skipJWs ('"' :: B) = '"' :: B := skipJWs_cons _ _ (by decide)
  have hw2 : skipJWs (',' :: '"' :: 'a' :: 'n' :: 's' :: 'w' :: 'e' :: 'r' :: '"' ::
      ':' :: '"' :: C) = ',' :: '"' :: 'a' :: 'n' :: 's' :: 'w' :: 'e' :: 'r' :: '"' ::
      ':' :: '"' :: C := skipJWs_cons _ _ (by decide)
  have hw3 : skipJWs (':' :: '"' :: C) = ':' :: '"' :: C := skipJWs_cons _ _ (by decide)
  have hw4 : skipJWs ('"' :: C) = '"' :: C := skipJWs_cons _ _ (by decide)
  have hw5 : skipJWs (rbrace :: rest) = rbrace :: rest := skipJWs_cons _ _ (by decide)
  have hw6 : skipJWs ('"' :: 'a' :: 'n' :: 's' :: 'w' :: 'e' :: 'r' :: '"' ::
      ':' :: '"' :: C) = '"' :: 'a' :: 'n' :: 's' :: 'w' :: 'e' :: 'r' :: '"' ::
      ':' :: '"' :: C := skipJWs_cons _ _ (by decide)
  rw [h3]
  simp [pFields, pValue, pStr_qkey, pStr_akey, hB, hC, hw0, hw1, hw2, hw3, hw4, hw5, hw6, h2]
  split
  · rename_i r4 heq
    injection heq with hh1 hh2
    exact absurd hh1 (by decide)
  · rename_i r5 r6 heq
    injection heq with hh1 hh2
    subst hh2
    simp [← hh1]
  · rename_i heq
    exact absurd heq (by simp)

/-- The value parser consumes one printed pair object, leaving the
rest. -/
theorem pValue_obj (k : Nat) (q a : String) (rest : List Char) :
    ∃ j, pValue (k + 5) (stringifyPair (q, a) ++ rest) = some (j, rest) := by
  obtain ⟨tq, htq⟩ := pStr_escape q.toList
    (',' :: '"' :: 'a' :: 'n' :: 's' :: 'w' :: 'e' :: 'r' :: '"' :: ':' :: '"' ::
      (jEscape a.toList ++ '"' :: rbrace :: rest))
  obtain ⟨ta, hta⟩ := pStr_escape a.toList (rbrace :: rest)
  have hf := pFields_two_gen (k + 1)
    (jEscape q.toList ++ '"' :: ',' :: '"' :: 'a' :: 'n' :: 's' :: 'w' :: 'e' :: 'r' :: '"' ::
      ':' :: '"' :: (jEscape a.toList ++ '"' :: rbrace :: rest))
    (jEscape a.toList ++ '"' :: rbrace :: rest) tq ta rest htq hta
  refine ⟨Json.obj [((⟨['q', 'u', 'e', 's', 't', 'i', 'o', 'n']⟩ : String), Json.str ⟨tq⟩),
    ((⟨['a', 'n', 's', 'w', 'e', 'r']⟩ : String), Json.str ⟨ta⟩)], ?_⟩
  have h5 : k + 5 = (k + 4) + 1 := by omega
  have hk4 : k + 1 + 3 = k + 4 := by omega
  rw [hk4] at hf
  have e1 : ¬ lbrace = '"' := by decide
  have e2 : ¬ lbrace = '[' := by decide
  have e4 : ¬ ('"' : Char) = rbrace := by decide
  have hq2 : jsonWs '"' = false := by decide
  rw [h5]
  simp only [stringifyPair, List.cons_append, List.append_assoc]
  simp [pValue, e1, e2, e4, skipJWs_cons, hq2]
  simp at hf
  exact hf

/-- A comma-joined list of printed pairs starts with an opening
brace. -/
theorem sepJoin_head (p : String × String) (l : List (String × String)) :
    ∃ t, sepJoin ((p :: l).map stringifyPair) = lbrace :: t := by
  cases l with
  | nil => exact ⟨_, rfl⟩
  | cons p2 l2 => exact ⟨_, rfl⟩

/-- One-step unfolding of the items parser. -/
theorem pItems_step (fuel : Nat) (l : List Char) :
    pItems (fuel + 1) l = (pValue fuel l).bind (fun vr =>
      match skipJWs vr.2 with
      | ',' :: r2 => Option.map (fun p => (vr.1 :: p.1, p.2)) (pItems fuel (skipJWs r2))
      | ']' :: r2 => some ([vr.1], r2)
      | _ => none) := rfl

/-- One-step unfolding of the value parser on an opening bracket. -/
theorem pValue_lbrack (fuel : Nat) (rest : List Char) :
    pValue (fuel + 1) ('[' :: rest) =
      match skipJWs rest with
      | ']' :: r => some (Json.arr [], r)
      | l1 => Option.map (fun p => (Json.arr p.1, p.2)) (pItems fuel l1) := rfl

/-- The value parser on an opening bracket defers to the items parser
when the first significant character is not a closing bracket. -/
theorem pValue_lbrack_items (fuel : Nat) (rest : List Char) (c : Char) (t : List Char)
    (h : skipJWs rest = c :: t) (hc : c ≠ ']') :
    pValue (fuel + 1) ('[' :: rest) =
      Option.map (fun p => (Json.arr p.1, p.2)) (pItems fuel (skipJWs rest)) := by
  rw [pValue_lbrack, h]
  split
  · rename_i r heq
    injection heq with hh1 hh2
    exact absurd hh1 hc
  · rfl

/-- The items parser consumes a comma-joined list of printed pairs up
to and including the closing bracket. -/
theorem pItems_pairs (ps : List (String × String)) : ∀ (k : Nat) (rest : List Char),
    ps ≠ [] →
    ∃ js, pItems (k + ps.length + 5) (sepJoin (ps.map stringifyPair) ++ ']' :: rest) =
      some (js, rest) := by
  induction ps with
  | nil =>
    intro k rest hne
    exact absurd rfl hne
  | cons p ps' ih =>
    intro k rest _
    cases ps' with
    | nil =>
      obtain ⟨j, hj⟩ := pValue_obj k p.1 p.2 (']' :: rest)
      refine ⟨[j], ?_⟩
      have hfuel : k + (p :: ([] : List (String × String))).length + 5 = ((k + 5)) + 1 := by
        simp
      rw [hfuel]
      simp only [List.map_cons, List.map_nil, sepJoin]
      rw [pItems_step]
      rw [hj]
      simp only [Option.bind_eq_bind, Option.some_bind]
      rw [skipJWs_cons ']' _ (by decide)]
      split
      · rename_i r2 heq
        injection heq with hh1 hh2
        exact absurd hh1 (by decide)
      · rename_i r2 heq
        injection heq with hh1 hh2
        subst hh2
        rfl
      · rename_i hn1 hn2
        exact absurd rfl (hn2 rest)
    | cons p2 ps'' =>
      obtain ⟨j, hj⟩ := pValue_obj (k + ps''.length + 1) p.1 p.2
        (',' :: (sepJoin ((p2 :: ps'').map stringifyPair) ++ ']' :: rest))
      obtain ⟨js, hjs⟩ := ih k rest (by simp)
      refine ⟨j :: js, ?_⟩
      have hfuel : k + (p :: p2 :: ps'').length + 5 = ((k + ps''.length + 1) + 5) + 1 := by
        simp
        omega
      rw [hfuel]
      have hsplit : sepJoin ((p :: p2 :: ps'').map stringifyPair) ++ ']' :: rest =
          stringifyPair p ++ (',' :: (sepJoin ((p2 :: ps'').map stringifyPair) ++ ']' :: rest)) := by
        simp [sepJoin, List.append_assoc]
      rw [hsplit]
      rw [pItems_step]
      rw [hj]
      simp only [Option.bind_eq_bind, Option.some_bind]
      rw [skipJWs_cons ',' _ (by decide)]
      obtain ⟨t, hhead⟩ := sepJoin_head p2 ps''
      have hskip : skipJWs (sepJoin ((p2 :: ps'').map stringifyPair) ++ ']' :: rest) =
          sepJoin ((p2 :: ps'').map stringifyPair) ++ ']' :: rest := by
        rw [hhead, List.cons_append]
        exact skipJWs_cons _ _ (by decide)
      have hconv : (k + ps''.length + 1) + 5 = k + (p2 :: ps'').length + 5 := by
        simp
        omega
      split
      · rename_i r2 heq
        injection heq with hh1 hh2
        subst hh2
        rw [hskip, hconv, hjs]
        rfl
      · rename_i r2 heq
        injection heq with hh1 hh2
        exact absurd hh1 (by decide)
      · rename_i hn1 hn2
        exact absurd rfl (hn1 _)

/-- Lower bound on the printed length of one pair. -/
theorem stringifyPair_len (p : String × String) : 27 ≤ (stringifyPair p).length := by
  simp [stringifyPair, List.length_append]
  omega

/-- Lower bound on the printed length of a joined pair list. -/
theorem sepJoin_len : ∀ (ps : List (String × String)), ps ≠ [] →
    ps.length + 4 ≤ (sepJoin (ps.map stringifyPair)).length := by
  intro ps
  induction ps with
  | nil =>
    intro h
    exact absurd rfl h
  | cons p ps' ih =>
    intro _
    cases ps' with
    | nil =>
      have := stringifyPair_len p
      simp [sepJoin]
      omega
    | cons p2 ps'' =>
      have h1 := ih (by simp)
      have h2 := stringifyPair_len p
      simp only [List.map_cons, sepJoin, List.length_append, List.length_cons] at h1 ⊢
      omega

/-- The parse of the stringified non-empty pair list succeeds: the
fragment-repair output of sanitizeJsonResponse is always valid
JSON. -/
theorem jsonParse_stringifyPairs (ps : List (String × String)) (hne : ps ≠ []) :
    (jsonParse (stringifyPairs ps)).isSome = true := by
  obtain ⟨p, ps', rfl⟩ : ∃ p ps', ps = p :: ps' := by
    cases ps with
    | nil => exact absurd rfl hne
    | cons a b => exact ⟨a, b, rfl⟩
  have hlen := sepJoin_len (p :: ps') (by simp)
  obtain ⟨k, hk⟩ : ∃ k, (sepJoin ((p :: ps').map stringifyPair)).length + 2 =
      k + (p :: ps').length + 5 := by
    refine ⟨(sepJoin ((p :: ps').map stringifyPair)).length - (p :: ps').length - 3, ?_⟩
    simp only [List.length_cons] at hlen ⊢
    omega
  obtain ⟨js, hjs⟩ := pItems_pairs (p :: ps') k [] (by simp)
  obtain ⟨t, hhead⟩ := sepJoin_head p ps'
  unfold jsonParse stringifyPairs
  simp only [String.toList]
  rw [List.cons_append]
  rw [skipJWs_cons '[' _ (by decide)]
  have htl : ('[' :: (sepJoin ((p :: ps').map stringifyPair) ++ [']'])).length + 1 =
      (k + (p :: ps').length + 5) + 1 := by
    simp only [List.length_cons, List.length_append, List.length_nil] at hk ⊢
    omega
  rw [htl]
  have hskip : skipJWs (sepJoin ((p :: ps').map stringifyPair) ++ [']']) =
      sepJoin ((p :: ps').map stringifyPair) ++ [']'] := by
    rw [hhead, List.cons_append]
    exact skipJWs_cons _ _ (by decide)
  rw [pValue_lbrack_items _ _ lbrace (t ++ [']'])
    (by rw [hskip, hhead, List.cons_append]) (by decide)]
  rw [hskip, hjs]
  simp [skipJWs]

/-- The bracket-extraction preprocessing of sanitizeJsonResponse (the
`text1` binding of lines 262-268 of index.ts): the outermost-bracket
regex match replaces the text whenever it succeeds, before any parse
attempt. -/
def sanitizeText1 (text0 : String) : String :=
  match extractArraySub text0 with
  | some m => m
  | none => text0

/-- The repair cascade of sanitizeJsonResponse, written as a chain of
conditionals over the extracted text. -/
theorem sanitize_cascade (text0 : String) :
    sanitizeJsonResponse text0 =
      if (jsonParse (sanitizeText1 text0)).isSome then sanitizeText1 text0
      else if ¬ (extractQAPairs (sanitizeText1 text0).toList).isEmpty then
        stringifyPairs (extractQAPairs (sanitizeText1 text0).toList)
      else if (jsonParse (⟨escapeHtml (sanitizeText1 text0).toList⟩ : String)).isSome then
        (⟨escapeHtml (sanitizeText1 text0).toList⟩ : String)
      else fallbackLiteral := rfl

set_option maxRecDepth 1000000 in
/-- Every sanitizeJsonResponse output parses as JSON: each branch of
the cascade either checked a parse or emits printed/literal JSON. -/
theorem sanitize_parses (raw : String) :
    (jsonParse (sanitizeJsonResponse raw)).isSome = true := by
  rw [sanitize_cascade]
  by_cases h1 : (jsonParse (sanitizeText1 raw)).isSome = true
  · rw [if_pos h1]
    exact h1
  · rw [if_neg h1]
    by_cases h2 : (extractQAPairs (sanitizeText1 raw).toList).isEmpty = true
    · rw [if_neg (not_not_intro h2)]
      by_cases h3 : (jsonParse (⟨escapeHtml (sanitizeText1 raw).toList⟩ : String)).isSome = true
      · rw [if_pos h3]
        exact h3
      · rw [if_neg h3]
        with_unfolding_all decide
    · rw [if_pos h2]
      exact jsonParse_stringifyPairs _ (fun hnil => h2 (by rw [hnil]; rfl))

/-- C5: corrected order of the repair strategies.  The bracket
extraction is applied unconditionally FIRST (replacing the text
whenever the regex matches); only then is the direct parse attempted
on the extracted text, then the fragment repair, then the HTML-escape
reparse, then the literal fallback, each only when the prior step
failed. -/
theorem claim_C5_amended (text0 : String) :
    (extractArraySub text0 = none → sanitizeText1 text0 = text0) ∧
    (∀ m, extractArraySub text0 = some m → sanitizeText1 text0 = m) ∧
    ((jsonParse (sanitizeText1 text0)).isSome = true →
      sanitizeJsonResponse text0 = sanitizeText1 text0) ∧
    ((jsonParse (sanitizeText1 text0)).isSome = false →
      extractQAPairs (sanitizeText1 text0).toList ≠ [] →
      sanitizeJsonResponse text0 =
        stringifyPairs (extractQAPairs (sanitizeText1 text0).toList)) ∧
    ((jsonParse (sanitizeText1 text0)).isSome = false →
      extractQAPairs (sanitizeText1 text0).toList = [] →
      ((jsonParse (⟨escapeHtml (sanitizeText1 text0).toList⟩ : String)).isSome = true →
        sanitizeJsonResponse text0 = (⟨escapeHtml (sanitizeText1 text0).toList⟩ : String)) ∧
      ((jsonParse (⟨escapeHtml (sanitizeText1 text0).toList⟩ : String)).isSome = false →
        sanitizeJsonResponse text0 = fallbackLiteral)) := by
  refine ⟨?_, ?_, ?_, ?_, ?_⟩
  · intro h
    simp [sanitizeText1, h]
  · intro m h
    simp [sanitizeText1, h]
  · intro h1
    rw [sanitize_cascade]
    exact if_pos h1
  · intro h1 h2
    rw [sanitize_cascade]
    rw [if_neg (by simp only [h1]; decide)]
    exact if_pos (fun hh => h2 (by simpa using hh))
  · intro h1 h2
    refine ⟨?_, ?_⟩
    · intro h3
      rw [sanitize_cascade]
      rw [if_neg (by simp only [h1]; decide),
        if_neg (not_not_intro (by rw [h2]; rfl))]
      exact if_pos h3
    · intro h3
      rw [sanitize_cascade]
      rw [if_neg (by simp only [h1]; decide),
        if_neg (not_not_intro (by rw [h2]; rfl))]
      exact if_neg (by simp only [h3]; decide)

set_option maxRecDepth 1000000 in
/-- C5 witness: on input x[\x7b"a":1\x7d] the extraction strips the
leading prose and the extracted text parses, so it is returned as is. -/
theorem claim_C5_witness :
    sanitizeText1 "x[\x7b\"a\":1\x7d]" = "[\x7b\"a\":1\x7d]" ∧
    sanitizeJsonResponse "x[\x7b\"a\":1\x7d]" = "[\x7b\"a\":1\x7d]" := by
  constructor
  · exact (claim_C5_amended "x[\x7b\"a\":1\x7d]").2.1 "[\x7b\"a\":1\x7d]"
      (by with_unfolding_all rfl)
  · have h := (claim_C5_amended "x[\x7b\"a\":1\x7d]").2.2.1 (by with_unfolding_all decide)
    rw [h]
    with_unfolding_all rfl

set_option maxRecDepth 1000000 in
/-- A valid JSON array of two strings whose first element contains a
bracketed brace fragment. -/
def proseArrayTxt : String := "[\"ab[\x7bc\x7d]\", \"d\"]"

set_option maxRecDepth 1000000 in
/-- C5 counterexample: the full text is itself valid JSON, yet
sanitizeJsonResponse does not return it: the bracket extraction runs
first, replaces the text with the inner fragment, every later repair
of that fragment fails, and the literal fallback is returned. -/
theorem claim_C5_counterexample :
    (jsonParse proseArrayTxt).isSome = true ∧
    sanitizeJsonResponse proseArrayTxt ≠ proseArrayTxt ∧
    sanitizeJsonResponse proseArrayTxt = fallbackLiteral := by
  refine ⟨by with_unfolding_all decide, ?_, by with_unfolding_all rfl⟩
  with_unfolding_all decide

set_option maxRecDepth 1000000 in
/-- C4: corrected.  The sanitized text always parses as JSON, so the
normalization stage never raises; and on total repair failure (direct
parse fails, no question/answer fragments, escaped text fails to
parse) the stage returns exactly the single canonical no-result
candidate.  The non-emptiness part of the original claim is dropped:
see the counterexample. -/
theorem claim_C4_amended :
    (∀ raw : String, (jsonParse (sanitizeJsonResponse raw)).isSome = true) ∧
    (∀ raw : String,
      (jsonParse (sanitizeText1 raw)).isSome = false →
      extractQAPairs (sanitizeText1 raw).toList = [] →
      (jsonParse (⟨escapeHtml (sanitizeText1 raw).toList⟩ : String)).isSome = false →
      sanitizeJsonResponse raw = fallbackLiteral ∧
      normalizeStage raw = NormResult.candidates [fallbackPairJson]) := by
  refine ⟨sanitize_parses, ?_⟩
  intro raw h1 h2 h3
  have hs : sanitizeJsonResponse raw = fallbackLiteral := by
    rw [sanitize_cascade]
    rw [if_neg (by simp only [h1]; decide),
      if_neg (not_not_intro (by rw [h2]; rfl))]
    exact if_neg (by simp only [h3]; decide)
  have hp : jsonParse fallbackLiteral = some (Json.arr [fallbackPairJson]) := by
    with_unfolding_all rfl
  refine ⟨hs, ?_⟩
  rw [normalizeStage, hs, hp]

set_option maxRecDepth 1000000 in
/-- C4 witness: pure prose defeats every repair step and yields the
canonical single-candidate fallback. -/
theorem claim_C4_witness :
    sanitizeJsonResponse "hello" = fallbackLiteral ∧
    normalizeStage "hello" = NormResult.candidates [fallbackPairJson] :=
  claim_C4_amended.2 "hello" (by with_unfolding_all rfl) (by with_unfolding_all rfl)
    (by with_unfolding_all rfl)

set_option maxRecDepth 1000000 in
/-- C4 counterexample: the input "[]" parses directly and the stage
returns an EMPTY candidate array, refuting the claimed non-emptiness
of the normalization result. -/
theorem claim_C4_counterexample :
    normalizeStage "[]" = NormResult.candidates [] := by
  with_unfolding_all rfl

end GptApi
